import Mathlib

/-!
# llvm2c: expression nodes, struct discovery and the main-signature fixup

A shallow embedding of `src/expr/Expr.cpp`, `src/parser/fixMainParameters.cpp`,
`src/parser/parseStructDeclarations.cpp` and `src/type/TypeHandler.h`.

Conventions of the embedding.

* An object owned through `std::unique_ptr` is a value; an in-place update through a
  pointer to it is an update of that value where it is stored. Types are owned by the
  binding that holds them and are not shared between bindings.
* A borrowed pointer that the code only stores or tests for null is an `Option`; a
  pointer that the code dereferences without a test stands for the object it points to.
* The result type of a node (`ExprBase::type`) is an `Option`: some nodes never call
  `setType`. A `std::unique_ptr<Type>` handed to a constructor or to `addItem` is a type.
* `assert` is compiled in: a failed assertion aborts the pass.
* Indexing a `std::vector` out of range has no defined result; the constructors that
  index return `Except` with the out-of-range case as their error branch.
* Declarations of the repository that the four source files use but do not contain
  (`Type.h`, `Expr.h`, `Program.h`, `Func.h`, `TypeHandler.cpp`) are modelled from the
  specification; each such definition says so in its comment.
-/

namespace llvm2c

/-! ## Types (`Type.h`, used by every source file) -/

/-- Modelled from the spec: the integer classes of `Type.h`, named as `TypeHandler.h`
names them (`IntType`, `CharType`, `ShortType`, `LongType`, `Int128`). -/
inductive IntKind where
  | IntType
  | CharType
  | ShortType
  | LongType
  | Int128
  deriving DecidableEq, Repr

/-- Modelled from the spec: the floating point classes named in `TypeHandler.h`. -/
inductive FloatKind where
  | FloatType
  | DoubleType
  | LongDoubleType
  deriving DecidableEq, Repr

mutual
/-- Modelled from the spec: the `Type` hierarchy of `Type.h` (spec section 3):
`Void`, `Integer`, `Float`, `Pointer`, `FunctionPointer`, `Struct`, `Array`.
`IntegerType` carries the `unsignedType` flag that `fixMainParameters.cpp` writes,
`PointerType` the owned pointee `type` that `convertToSignedIntPtr` reads. Inside
another type a struct is named, as `Struct::Struct` builds it (`StructType(name)`). -/
inductive CType where
  | VoidType
  | IntegerType (kind : IntKind) (unsignedType : Bool)
  | FloatingPointType (kind : FloatKind)
  | PointerType (type : CType)
  | ArrayType (type : CType) (size : Nat)
  | StructType (name : String)
  | FunctionPointerType (returnType : CType) (params : CTypeList)
/-- The parameter types of a function pointer type. -/
inductive CTypeList where
  | nil
  | cons (head : CType) (tail : CTypeList)
end

mutual
/-- Structural equality test on types. -/
def CType.beq : CType → CType → Bool
  | .VoidType, .VoidType => true
  | .IntegerType k u, .IntegerType k2 u2 => decide (k = k2) && decide (u = u2)
  | .FloatingPointType k, .FloatingPointType k2 => decide (k = k2)
  | .PointerType t, .PointerType t2 => CType.beq t t2
  | .ArrayType t n, .ArrayType t2 n2 => CType.beq t t2 && decide (n = n2)
  | .StructType n, .StructType n2 => decide (n = n2)
  | .FunctionPointerType r p, .FunctionPointerType r2 p2 => CType.beq r r2 && CTypeList.beq p p2
  | _, _ => false
/-- Structural equality test on parameter type lists. -/
def CTypeList.beq : CTypeList → CTypeList → Bool
  | .nil, .nil => true
  | .cons h t, .cons h2 t2 => CType.beq h h2 && CTypeList.beq t t2
  | _, _ => false
end

mutual
theorem CType.beq_refl : ∀ a : CType, CType.beq a a = true
  | .VoidType => by simp [CType.beq]
  | .IntegerType _ _ => by simp [CType.beq]
  | .FloatingPointType _ => by simp [CType.beq]
  | .PointerType t => by simp [CType.beq, CType.beq_refl t]
  | .ArrayType t _ => by simp [CType.beq, CType.beq_refl t]
  | .StructType _ => by simp [CType.beq]
  | .FunctionPointerType r p => by simp [CType.beq, CType.beq_refl r, CTypeList.list_beq_refl p]
theorem CTypeList.list_beq_refl : ∀ a : CTypeList, CTypeList.beq a a = true
  | .nil => by simp [CTypeList.beq]
  | .cons h t => by simp [CTypeList.beq, CType.beq_refl h, CTypeList.list_beq_refl t]
end

mutual
theorem CType.eq_of_beq : ∀ a b : CType, CType.beq a b = true → a = b
  | .VoidType, b => by cases b <;> simp [CType.beq]
  | .IntegerType _ _, b => by cases b <;> simp [CType.beq]
  | .FloatingPointType _, b => by cases b <;> simp [CType.beq]
  | .PointerType t, b => by
    cases b <;> simp [CType.beq]
    exact CType.eq_of_beq t _
  | .ArrayType t _, b => by
    cases b <;> simp [CType.beq]
    intro h hn
    exact ⟨CType.eq_of_beq t _ h, hn⟩
  | .StructType _, b => by cases b <;> simp [CType.beq]
  | .FunctionPointerType r p, b => by
    cases b <;> simp [CType.beq]
    intro h1 h2
    exact ⟨CType.eq_of_beq r _ h1, CTypeList.list_eq_of_beq p _ h2⟩
theorem CTypeList.list_eq_of_beq : ∀ a b : CTypeList, CTypeList.beq a b = true → a = b
  | .nil, b => by cases b <;> simp [CTypeList.beq]
  | .cons h t, b => by
    cases b <;> simp [CTypeList.beq]
    intro h1 h2
    exact ⟨CType.eq_of_beq h _ h1, CTypeList.list_eq_of_beq t _ h2⟩
end

instance : DecidableEq CType := fun a b =>
  decidable_of_iff (CType.beq a b = true)
    ⟨CType.eq_of_beq a b, fun h => h ▸ CType.beq_refl a⟩

instance : DecidableEq CTypeList := fun a b =>
  decidable_of_iff (CTypeList.beq a b = true)
    ⟨CTypeList.list_eq_of_beq a b, fun h => h ▸ CTypeList.list_beq_refl a⟩

mutual
/-- Modelled from the spec: `Type::clone()` of `Type.h`, which returns a fresh instance
that is structurally equal to the receiver (spec section 3: "cloning avoids aliasing
between a struct's declared field type and a use site's type"). -/
def CType.clone : CType → CType
  | .VoidType => .VoidType
  | .IntegerType kind unsignedType => .IntegerType kind unsignedType
  | .FloatingPointType kind => .FloatingPointType kind
  | .PointerType type => .PointerType type.clone
  | .ArrayType type size => .ArrayType type.clone size
  | .StructType name => .StructType name
  | .FunctionPointerType returnType params => .FunctionPointerType returnType.clone params.clone
/-- Clone of a parameter type list, element by element. -/
def CTypeList.clone : CTypeList → CTypeList
  | .nil => .nil
  | .cons head tail => .cons head.clone tail.clone
end

/-- The constructor `IntType(bool unsignedType)` used by `fixMainParameters.cpp` and
`TypeHandler.h`. -/
def IntType (unsignedType : Bool) : CType := .IntegerType .IntType unsignedType

/-- The constructor `CharType(bool unsignedType)` of `TypeHandler.h`. -/
def CharType (unsignedType : Bool) : CType := .IntegerType .CharType unsignedType

/-- The constructor `VoidType()` of `TypeHandler.h`. -/
def VoidType : CType := .VoidType

/-! ## Expression nodes (`Expr.cpp`) -/

/-- Modelled from the spec: the discriminants of `Expr.h` that `Expr.cpp` names. -/
inductive ExprKind where
  | EK_Struct
  | EK_StructElement
  | EK_ArrayElement
  | EK_ExtractValueExpr
  | EK_Value
  | EK_GlobalValue
  | EK_IfExpr
  | EK_SwitchExpr
  | EK_AsmExpr
  | EK_CallExpr
  | EK_PointerShift
  | EK_GepExpr
  | EK_SelectExpr
  | EK_StackAlloc
  deriving DecidableEq, Repr

/-- Modelled from the spec: the base class `ExprBase` of `Expr.h`: the discriminant given
to the base constructor and the owned result type, absent until `setType` is called. -/
structure ExprBase where
  kind : ExprKind
  type : Option CType := none
  deriving DecidableEq

/-- What a borrowed `Expr*` gives access to: the base part of the node it points to. -/
abbrev Expr := ExprBase

/-- Modelled from the spec: `Expr::getKind()`. -/
def ExprBase.getKind (e : ExprBase) : ExprKind := e.kind

/-- Modelled from the spec: `ExprBase::getType()`, null while no type has been set. -/
def ExprBase.getType (e : ExprBase) : Option CType := e.type

/-- Modelled from the spec: `ExprBase::setType(std::unique_ptr<Type>)`. -/
def ExprBase.setType (e : ExprBase) (type : CType) : ExprBase := { e with type := some type }

/-- Modelled from the spec: the inherited `isSimple()` of `Expr.h`, which the classes
without an override in `Expr.cpp` report (spec section 8: compound and control nodes
"report simple=false"). -/
def ExprBase.isSimple (_ : ExprBase) : Bool := false

/-- Modelled from the spec: a borrowed `Block*`; `Expr.cpp` only stores blocks, so a
block is represented by its identity. -/
structure Block where
  id : Nat
  deriving DecidableEq

/-- The failure of a node constructor: the undefined behaviour the C++ runs into. -/
inductive ExprError where
  | indexOutOfRange
  | nullType
  deriving DecidableEq, Repr

/-- The class `Struct` (`Expr.cpp` lines 6-21): a name and the ordered field list. -/
structure Struct extends ExprBase where
  name : String
  items : List (CType × String)
  deriving DecidableEq

/-- Embeds `Struct::Struct(const std::string& name)`. -/
def Struct.new (name : String) : Struct :=
  { toExprBase := ExprBase.setType { kind := .EK_Struct } (.StructType name),
    name := name, items := [] }

/-- Embeds `Struct::addItem`: `items.push_back(std::make_pair(std::move(type), name))`. -/
def Struct.addItem (s : Struct) (type : CType) (name : String) : Struct :=
  { s with items := s.items ++ [(type, name)] }

/-- Embeds `Struct::classof`. -/
def Struct.classof (expr : Expr) : Bool := expr.getKind == .EK_Struct

/-- The class `StructElement` (`Expr.cpp` lines 23-37). -/
structure StructElement extends ExprBase where
  strct : Struct
  expr : Option Expr
  element : Nat
  deriving DecidableEq

/-- Embeds `StructElement::StructElement(Struct* strct, Expr* expr, unsigned element)`:
`setType(strct->items[element].first->clone())`, with `items[element]` out of range as
the error branch. -/
def StructElement.new (strct : Struct) (expr : Option Expr) (element : Nat) :
    Except ExprError StructElement :=
  match strct.items[element]? with
  | none => .error .indexOutOfRange
  | some item =>
    .ok { toExprBase := ExprBase.setType { kind := .EK_StructElement } item.1.clone,
          strct := strct, expr := expr, element := element }

/-- The class `Value` (`Expr.cpp` lines 79-105). -/
structure Value extends ExprBase where
  valueName : String
  deriving DecidableEq

/-- Embeds `Value::Value(const std::string& valueName, std::unique_ptr<Type> type)`. -/
def Value.new (valueName : String) (type : CType) : Value :=
  { toExprBase := ExprBase.setType { kind := .EK_Value } type, valueName := valueName }

/-- Embeds `Value::Value(const std::string& valueName, std::unique_ptr<Type> type, ExprKind kind)`. -/
def Value.newOfKind (valueName : String) (type : CType) (kind : ExprKind) : Value :=
  { toExprBase := ExprBase.setType { kind := kind } type, valueName := valueName }

/-- Embeds `Value::isZero`. -/
def Value.isZero (v : Value) : Bool := v.valueName == "0"

/-- Embeds `Value::isSimple`. -/
def Value.isSimple (_ : Value) : Bool := true

/-- Embeds `Value::classof`. -/
def Value.classof (expr : Expr) : Bool :=
  expr.getKind == .EK_Value || expr.getKind == .EK_GlobalValue

/-- The class `GlobalValue` (`Expr.cpp` lines 107-121), derived from `Value`. -/
structure GlobalValue extends Value where
  value : String
  deriving DecidableEq

/-- Embeds `GlobalValue::GlobalValue(varName, value, type)`:
`Value(varName, std::move(type), EK_GlobalValue), value(value)`. -/
def GlobalValue.new (varName : String) (value : String) (type : CType) : GlobalValue :=
  { toValue := Value.newOfKind varName type .EK_GlobalValue, value := value }

/-- Embeds `GlobalValue::classof`. -/
def GlobalValue.classof (expr : Expr) : Bool := expr.getKind == .EK_GlobalValue

/-- Embeds `GlobalValue::isSimple`. -/
def GlobalValue.isSimple (_ : GlobalValue) : Bool := true

/-- The class `IfExpr` (`Expr.cpp` lines 123-141). -/
structure IfExpr extends ExprBase where
  cmp : Option Expr
  trueBlock : Option Block
  falseBlock : Option Block
  deriving DecidableEq

/-- Embeds `IfExpr::IfExpr(Expr* cmp, Block* trueBlock, Block* falseBlock)`. -/
def IfExpr.new (cmp : Option Expr) (trueBlock falseBlock : Option Block) : IfExpr :=
  { kind := .EK_IfExpr, cmp := cmp, trueBlock := trueBlock, falseBlock := falseBlock }

/-- Embeds `IfExpr::IfExpr(Block* trueBlock)`: the unconditional branch. -/
def IfExpr.newUnconditional (trueBlock : Option Block) : IfExpr :=
  { kind := .EK_IfExpr, cmp := none, trueBlock := trueBlock, falseBlock := none }

/-- Embeds `IfExpr::classof`. -/
def IfExpr.classof (expr : Expr) : Bool := expr.getKind == .EK_IfExpr

/-- The class `IfExpr` has no `isSimple` in `Expr.cpp`: the call reaches the inherited one. -/
def IfExpr.isSimple (e : IfExpr) : Bool := e.toExprBase.isSimple

/-- The class `SwitchExpr` (`Expr.cpp` lines 143-155); `cases` is the ordered
`std::map<int, Block*>`, `def_` the member `def`. -/
structure SwitchExpr extends ExprBase where
  cmp : Option Expr
  def_ : Option Block
  cases : List (Int × Option Block)
  deriving DecidableEq

/-- Embeds `SwitchExpr::SwitchExpr(Expr* cmp, Block* def, std::map<int, Block*> cases)`. -/
def SwitchExpr.new (cmp : Option Expr) (dflt : Option Block)
    (cases : List (Int × Option Block)) : SwitchExpr :=
  { kind := .EK_SwitchExpr, cmp := cmp, def_ := dflt, cases := cases }

/-- Embeds `SwitchExpr::classof`. -/
def SwitchExpr.classof (expr : Expr) : Bool := expr.getKind == .EK_SwitchExpr

/-- The class `SwitchExpr` has no `isSimple` in `Expr.cpp`: the call reaches the inherited one. -/
def SwitchExpr.isSimple (e : SwitchExpr) : Bool := e.toExprBase.isSimple

/-- The class `AsmExpr` (`Expr.cpp` lines 157-179): each operand is a constraint
string with the expression bound to it, null while unbound. -/
structure AsmExpr extends ExprBase where
  inst : String
  output : List (String × Option Expr)
  input : List (String × Option Expr)
  clobbers : String
  deriving DecidableEq

/-- Embeds `AsmExpr::AsmExpr(inst, output, input, clobbers)`. -/
def AsmExpr.new (inst : String) (output input : List (String × Option Expr))
    (clobbers : String) : AsmExpr :=
  { kind := .EK_AsmExpr, inst := inst, output := output, input := input, clobbers := clobbers }

/-- The loop of `AsmExpr::addOutputExpr`, started at index `i`:
`for (; i < output.size(); i++) if (!output[i].second) { output[i].second = expr; break; }`.
`fuel` bounds the number of iterations; `output.size() - i` iterations always suffice. -/
def AsmExpr.addOutputExprLoop (expr : Option Expr) :
    Nat → Nat → List (String × Option Expr) → List (String × Option Expr)
  | 0, _, output => output
  | fuel + 1, i, output =>
    match output[i]? with
    | none => output
    | some slot =>
      if slot.2.isNone then output.set i (slot.1, expr)
      else AsmExpr.addOutputExprLoop expr fuel (i + 1) output

/-- Embeds `AsmExpr::addOutputExpr(Expr* expr, unsigned pos)`. The operand list of an asm
statement is shorter than `2^32`, so the `unsigned` counter does not wrap. -/
def AsmExpr.addOutputExpr (a : AsmExpr) (expr : Option Expr) (pos : Nat) : AsmExpr :=
  { a with output := AsmExpr.addOutputExprLoop expr (a.output.length - pos) pos a.output }

/-- Embeds `AsmExpr::classof`. -/
def AsmExpr.classof (expr : Expr) : Bool := expr.getKind == .EK_AsmExpr

/-- The class `AsmExpr` has no `isSimple` in `Expr.cpp`: the call reaches the inherited one. -/
def AsmExpr.isSimple (e : AsmExpr) : Bool := e.toExprBase.isSimple

/-- The class `CallExpr` (`Expr.cpp` lines 181-199). -/
structure CallExpr extends ExprBase where
  funcName : String
  params : List (Option Expr)
  funcValue : Option Expr
  deriving DecidableEq

/-- Embeds `CallExpr::CallExpr(funcValue, funcName, params, type)`. -/
def CallExpr.new (funcValue : Option Expr) (funcName : String)
    (params : List (Option Expr)) (type : CType) : CallExpr :=
  { toExprBase := ExprBase.setType { kind := .EK_CallExpr } type,
    funcName := funcName, params := params, funcValue := funcValue }

/-- Embeds `CallExpr::classof`. -/
def CallExpr.classof (expr : Expr) : Bool := expr.getKind == .EK_CallExpr

/-- Embeds `CallExpr::isSimple`. -/
def CallExpr.isSimple (_ : CallExpr) : Bool := true

/-- The class `GepExpr` (`Expr.cpp` lines 219-238): the owned index expressions. -/
structure GepExpr extends ExprBase where
  indices : List Expr
  deriving DecidableEq

/-- Embeds `GepExpr::classof`. -/
def GepExpr.classof (expr : Expr) : Bool := expr.getKind == .EK_GepExpr

/-- Embeds `GepExpr::isSimple`. -/
def GepExpr.isSimple (_ : GepExpr) : Bool := true

/-- The index `size - 1` as `indices[indices.size() - 1]` computes it in `size_t`: for
an empty vector the subtraction wraps to the largest `size_t`, `2^64 - 1`. -/
def lastIndex (size : Nat) : Nat :=
  if size = 0 then 18446744073709551615 else size - 1

/-- The owned copy of the index vector that the loops of `ExtractValueExpr` and `GepExpr`
build: `for (auto& idx : indices) this->indices.push_back(std::move(idx))`. -/
def moveIndices (indices : List Expr) : List Expr :=
  indices.foldl (fun own idx => own ++ [idx]) []

/-- The class `ExtractValueExpr` (`Expr.cpp` lines 62-77): the owned index expressions. -/
structure ExtractValueExpr extends ExprBase where
  indices : List Expr
  deriving DecidableEq

/-- Embeds `ExtractValueExpr::ExtractValueExpr(std::vector<std::unique_ptr<Expr>>& indices)`:
`setType(this->indices[this->indices.size() - 1]->getType()->clone())`, with the index
out of range and the type of the last index unset as the error branches. -/
def ExtractValueExpr.new (indices : List Expr) : Except ExprError ExtractValueExpr :=
  let own := moveIndices indices
  match own[lastIndex own.length]? with
  | none => .error .indexOutOfRange
  | some last =>
    match last.getType with
    | none => .error .nullType
    | some type =>
      .ok { toExprBase := ExprBase.setType { kind := .EK_ExtractValueExpr } type.clone,
            indices := own }

/-- Embeds `ExtractValueExpr::classof`. -/
def ExtractValueExpr.classof (expr : Expr) : Bool := expr.getKind == .EK_ExtractValueExpr

/-- Embeds `GepExpr::GepExpr(std::vector<std::unique_ptr<Expr>>& indices)`:
`setType(this->indices[this->indices.size() - 1]->getType()->clone())`, with the index
out of range and the type of the last index unset as the error branches. -/
def GepExpr.new (indices : List Expr) : Except ExprError GepExpr :=
  let own := moveIndices indices
  match own[lastIndex own.length]? with
  | none => .error .indexOutOfRange
  | some last =>
    match last.getType with
    | none => .error .nullType
    | some type =>
      .ok { toExprBase := ExprBase.setType { kind := .EK_GepExpr } type.clone,
            indices := own }

/-- The class `PointerShift` (`Expr.cpp` lines 201-217). -/
structure PointerShift extends ExprBase where
  ptrType : Option CType
  pointer : Option Expr
  move : Option Expr
  deriving DecidableEq

/-- Embeds `PointerShift::PointerShift(std::unique_ptr<Type> ptrType, Expr* pointer, Expr* move)`:
`if (auto PT = llvm::dyn_cast_or_null<PointerType>(this->ptrType.get())) setType(PT->type->clone())`. -/
def PointerShift.new (ptrType : Option CType) (pointer move : Option Expr) : PointerShift :=
  let base : ExprBase := { kind := .EK_PointerShift }
  match ptrType with
  | some (.PointerType type) =>
    { toExprBase := base.setType type.clone, ptrType := ptrType, pointer := pointer,
      move := move }
  | _ => { toExprBase := base, ptrType := ptrType, pointer := pointer, move := move }

/-- Embeds `PointerShift::classof`. -/
def PointerShift.classof (expr : Expr) : Bool := expr.getKind == .EK_PointerShift

/-- The class `SelectExpr` (`Expr.cpp` lines 240-254). -/
structure SelectExpr extends ExprBase where
  left : Expr
  right : Option Expr
  comp : Option Expr
  deriving DecidableEq

/-- Embeds `SelectExpr::SelectExpr(Expr* comp, Expr* l, Expr* r)`:
`setType(l->getType()->clone())`, with the type of `l` unset as the error branch. -/
def SelectExpr.new (comp : Option Expr) (l : Expr) (r : Option Expr) :
    Except ExprError SelectExpr :=
  match l.getType with
  | none => .error .nullType
  | some type =>
    .ok { toExprBase := ExprBase.setType { kind := .EK_SelectExpr } type.clone,
          left := l, right := r, comp := comp }

/-- Embeds `SelectExpr::classof`. -/
def SelectExpr.classof (expr : Expr) : Bool := expr.getKind == .EK_SelectExpr

/-- The `Value` objects that the borrowed `Value*` of a `StackAlloc` can point to, by
address: the pointer outlives the constructor, so what it points to is read where
`getType` is called. -/
abbrev ValueStore := Nat → Value

/-- The class `StackAlloc` (`Expr.cpp` lines 256-276): the address of the wrapped
`Value`; the inherited `type` holds the clone made by the constructor. -/
structure StackAlloc extends ExprBase where
  value : Nat
  deriving DecidableEq

/-- Embeds `StackAlloc::StackAlloc(Value* var)`: `setType(var->getType()->clone())`, with
the type of `var` unset as the error branch. -/
def StackAlloc.new (store : ValueStore) (var : Nat) : Except ExprError StackAlloc :=
  match (store var).getType with
  | none => .error .nullType
  | some type =>
    .ok { toExprBase := ExprBase.setType { kind := .EK_StackAlloc } type.clone, value := var }

/-- Embeds `StackAlloc::getType`: `return value->getType()`. -/
def StackAlloc.getType (node : StackAlloc) (store : ValueStore) : Option CType :=
  (store node.value).getType

/-- Embeds `StackAlloc::classof`. -/
def StackAlloc.classof (expr : Expr) : Bool := expr.getKind == .EK_StackAlloc

/-! ## The IR module (external: `llvm::Module`) -/

/-- An `llvm::Function` of the input module: its identity (the address that
`Program::getFunction` is keyed by) and its name. -/
structure llvm.Function where
  address : Nat
  name : String
  deriving DecidableEq

/-- Embeds `llvm::Function::getName()`. -/
def llvm.Function.getName (func : llvm.Function) : String := func.name

/-- An identified `llvm::StructType` of the input module: its raw name and the field
layout the input declares for it (each field type by its identity). -/
structure llvm.StructType where
  name : String
  elements : List Nat
  deriving DecidableEq

/-- Embeds `llvm::StructType::getName().str()`. -/
def llvm.StructType.getName (structType : llvm.StructType) : String := structType.name

/-- The parts of an `llvm::Module` the passes enumerate: `functions()` and
`getIdentifiedStructTypes()`, each in enumeration order. -/
structure llvm.Module where
  functions : List llvm.Function
  getIdentifiedStructTypes : List llvm.StructType
  deriving DecidableEq

/-! ## The program (`Program.h`, `Func.h`, `TypeHandler.h`) -/

/-- Modelled from the spec: the pass names of `Program.h` that the spec lists
(section 4.3). -/
inductive PassType where
  | ParseStructDeclarations
  | CreateFunctionParameters
  | FixMainParameters
  deriving DecidableEq, Repr

/-- The state of `TypeHandler` (`TypeHandler.h`) that the code below reads or writes:
the typedef counter. The caches only decide instance identity, which values do not
have; the scalar singletons are the values their member initialisers give them. -/
structure TypeHandler where
  typeDefCount : Nat := 0
  deriving DecidableEq

/-- Embeds `uptr<IntType> uint = std::make_unique<IntType>(true)`. -/
def TypeHandler.uint (_ : TypeHandler) : CType := IntType true

/-- Embeds `uptr<IntType> sint = std::make_unique<IntType>(false)`. -/
def TypeHandler.sint (_ : TypeHandler) : CType := IntType false

/-- Embeds `uptr<CharType> uchar = std::make_unique<CharType>(true)`. -/
def TypeHandler.uchar (_ : TypeHandler) : CType := CharType true

/-- Embeds `uptr<CharType> schar = std::make_unique<CharType>(false)`. -/
def TypeHandler.schar (_ : TypeHandler) : CType := CharType false

/-- Embeds `uptr<VoidType> voidType = std::make_unique<VoidType>()`. -/
def TypeHandler.voidType (_ : TypeHandler) : CType := VoidType

/-- Modelled from the spec: `TypeHandler::pointerTo` of `TypeHandler.cpp`, "returns the
canonical pointer-to-`type` instance" (section 4.1). -/
def TypeHandler.pointerTo (_ : TypeHandler) (type : CType) : CType := .PointerType type

/-- Embeds `TypeHandler::getTypeDefName()`:
`ret = "typeDef_" + std::to_string(typeDefCount); typeDefCount++; return ret;` with the
`unsigned` counter wrapping at `2^32`. The result is the name and the handler after the
call. -/
def TypeHandler.getTypeDefName (handler : TypeHandler) : String × TypeHandler :=
  let ret := "typeDef_" ++ toString handler.typeDefCount
  (ret, { handler with typeDefCount := (handler.typeDefCount + 1) % 4294967296 })

/-- Modelled from the spec: the class `StructType` as `parseStructDeclarations.cpp` uses
it, a declared aggregate: its name and ordered field list (section 3). -/
structure StructType where
  name : String
  items : List (CType × String)
  deriving DecidableEq

/-- Modelled from the spec: the constructor `StructType(const std::string& name)`, an
aggregate without fields yet. -/
def StructType.new (name : String) : StructType := { name := name, items := [] }

/-- Modelled from the spec: `StructType::addItem(type, name)`, which "appends to the
field list" (section 4.2). -/
def StructType.addItem (s : StructType) (type : CType) (name : String) : StructType :=
  { s with items := s.items ++ [(type, name)] }

/-- Modelled from the spec: the class `Func` of `Func.h`: the return type and the
parameters that `fixMainParameters.cpp` writes. -/
structure Func where
  returnType : CType
  parameters : List Value
  deriving DecidableEq

/-- Modelled from the spec: the class `Program` of `Program.h` (section 2): the type
registry, the aggregate catalog in registration order, the function table, the
`hasVarArg` flag and the set of completed passes. -/
structure Program where
  typeHandler : TypeHandler
  structs : List StructType
  functions : llvm.Function → Func
  hasVarArg : Bool
  passes : List PassType

/-- Modelled from the spec: `Program::isPassCompleted(PassType)` (section 6). -/
def Program.isPassCompleted (program : Program) (pass : PassType) : Bool :=
  decide (pass ∈ program.passes)

/-- Modelled from the spec: `Program::addPass(PassType)` (section 6), insertion into the
set of completed passes. -/
def Program.addPass (program : Program) (pass : PassType) : Program :=
  { program with passes := program.passes.insert pass }

/-- Modelled from the spec: `Program::addStruct(std::unique_ptr<StructType>)`, which
"registers a new aggregate" (section 4.2). The catalog keeps the registrations in the
order they are made; the uniqueness of names is the caller's obligation and is not
enforced here. -/
def Program.addStruct (program : Program) (strct : StructType) : Program :=
  { program with structs := program.structs ++ [strct] }

/-- Modelled from the spec: `Program::getFunction(irFunctionHandle) → Function&`
(section 6), the record built for an `llvm::Function`. -/
def Program.getFunction (program : Program) (func : llvm.Function) : Func :=
  program.functions func

/-- A write through the `Func*` that `getFunction(&func)` returned. -/
def Program.setFunction (program : Program) (func : llvm.Function) (myFunc : Func) : Program :=
  { program with functions := fun f => if f = func then myFunc else program.functions f }

/-- How a pass ends: it returns, or an assertion fails and the run is aborted. Either
way the program is the state reached. -/
inductive PassResult where
  | completed (program : Program)
  | aborted (program : Program)

/-- The program state a pass ended in. -/
def PassResult.program : PassResult → Program
  | .completed program => program
  | .aborted program => program

/-- Whether the pass returned. -/
def PassResult.isCompleted : PassResult → Bool
  | .completed _ => true
  | .aborted _ => false

/-! ## `fixMainParameters.cpp` -/

/-- Embeds `convertToSignedIntPtr(PointerType* pt)`: descends through `pt->type` while it is a
pointer and clears `unsignedType` of the integer type found at the end. -/
def convertToSignedIntPtr : CType → CType
  | .PointerType (.PointerType inner) =>
    .PointerType (convertToSignedIntPtr (.PointerType inner))
  | .PointerType (.IntegerType kind _) => .PointerType (.IntegerType kind false)
  | pt => pt

/-- The body of the loop over `myFunc->parameters` (lines 29-36): the two
`dyn_cast_or_null` tests on `param->getType()` in turn. -/
def fixMainParameter (param : Value) : Value :=
  let type := param.getType
  let type :=
    match type with
    | some (.IntegerType kind _) => some (CType.IntegerType kind false)
    | other => other
  let type :=
    match type with
    | some (.PointerType inner) => some (convertToSignedIntPtr (.PointerType inner))
    | other => other
  { param with type := type }

/-- The body of the loop over `module->functions()` (lines 20-37). -/
def fixMainParametersStep (program : Program) (func : llvm.Function) : Program :=
  let myFunc := program.getFunction func
  if func.getName != "main" then program
  else
    let myFunc := { myFunc with returnType := IntType false }
    let myFunc := { myFunc with parameters := myFunc.parameters.map fixMainParameter }
    program.setFunction func myFunc

/-- Embeds `fixMainParameters(const llvm::Module* module, Program& program)`. -/
def fixMainParameters (module : llvm.Module) (program : Program) : PassResult :=
  if !program.isPassCompleted .CreateFunctionParameters then .aborted program
  else
    let program := module.functions.foldl fixMainParametersStep program
    .completed (program.addPass .FixMainParameters)

/-! ## `parseStructDeclarations.cpp` -/

/-- Embeds `initVarargStruct(StructType& varargStruct, Program& program)`. -/
def initVarargStruct (varargStruct : StructType) (program : Program) : StructType :=
  let varargStruct := varargStruct.addItem program.typeHandler.uint "gp_offset"
  let varargStruct := varargStruct.addItem program.typeHandler.uint "fp_offset"
  let varargStruct := varargStruct.addItem
    (program.typeHandler.pointerTo program.typeHandler.voidType) "overflow_arg_area"
  let varargStruct := varargStruct.addItem
    (program.typeHandler.pointerTo program.typeHandler.voidType) "reg_save_area"
  varargStruct

/-- The body of the loop over `module->getIdentifiedStructTypes()` (lines 19-31).
`getStructName` stands for `TypeHandler::getStructName`, which is declared in
`TypeHandler.h` and defined outside the source files. -/
def parseStructDeclarationsStep (getStructName : String → String) (program : Program)
    (structType : llvm.StructType) : Program :=
  let structName := getStructName structType.getName
  if !program.hasVarArg && structName == "__va_list_tag" then
    let varargStruct := StructType.new structName
    let varargStruct := initVarargStruct varargStruct program
    let program := program.addStruct varargStruct
    { program with hasVarArg := true }
  else
    let structExpr := StructType.new structName
    program.addStruct structExpr

/-- Embeds `parseStructDeclarations(const llvm::Module* module, Program& program)`. -/
def parseStructDeclarations (getStructName : String → String) (module : llvm.Module)
    (program : Program) : PassResult :=
  let program :=
    module.getIdentifiedStructTypes.foldl (parseStructDeclarationsStep getStructName) program
  .completed (program.addPass .ParseStructDeclarations)

/-- The type `pointer-to-...-to-pointer to t` with `n` levels of `PointerType`. -/
def pointerNest : Nat → CType → CType
  | 0, t => t
  | n + 1, t => .PointerType (pointerNest n t)

/-- The type with the `unsignedType` flag cleared on the integer type at the end of its
pointer chain (the type itself when it is an integer type); used to state what the
fixup does to a parameter type. -/
def signedInnermost : CType → CType
  | .PointerType inner => .PointerType (signedInnermost inner)
  | .IntegerType kind _ => .IntegerType kind false
  | other => other

/-- What the fixup makes of the record of a function named "main". -/
def fixMainFunc (myFunc : Func) : Func :=
  { returnType := IntType false, parameters := myFunc.parameters.map fixMainParameter }

/-- The four fields of the variadic descriptor as the specification lists them:
unsigned int "gp_offset", unsigned int "fp_offset", pointer-to-void
"overflow_arg_area", pointer-to-void "reg_save_area". -/
def varargItems : List (CType × String) :=
  [(CType.IntegerType .IntType true, "gp_offset"),
   (CType.IntegerType .IntType true, "fp_offset"),
   (CType.PointerType .VoidType, "overflow_arg_area"),
   (CType.PointerType .VoidType, "reg_save_area")]

/-- The registrations the specification describes for a list of struct types, given
whether `hasVarArg` is set: one aggregate per struct type, in order, under its
normalized name; the first one named "__va_list_tag" met while the flag is clear gets
the four fixed fields and sets the flag, every other one is registered empty. -/
def registeredStructs (getStructName : String → String) :
    Bool → List llvm.StructType → List StructType
  | _, [] => []
  | hasVarArg, structType :: rest =>
    if hasVarArg = false ∧ getStructName structType.name = "__va_list_tag" then
      { name := getStructName structType.name, items := varargItems } ::
        registeredStructs getStructName true rest
    else
      { name := getStructName structType.name, items := [] } ::
        registeredStructs getStructName hasVarArg rest

/-- Whether a struct type of the input carries the variadic descriptor's name. -/
def isVarargNamed (getStructName : String → String) (structType : llvm.StructType) : Bool :=
  getStructName structType.name == "__va_list_tag"

/-- A normalizer for the examples: the raw name "struct.__va_list_tag" becomes
"__va_list_tag", a raw name "struct.x" becomes "s_x" for the names used below. -/
def sampleStructName (raw : String) : String :=
  if raw = "struct.__va_list_tag" then "__va_list_tag"
  else if raw = "struct.a" then "s_a"
  else if raw = "struct.b" then "s_b"
  else raw

/-- The condition under which the struct type at index `i` is the one synthesized:
the flag was clear on entry, it carries the descriptor's name, and no struct type
before it does. -/
def isFirstVararg (getStructName : String → String) (hasVarArg : Bool)
    (structTypes : List llvm.StructType) (i : Nat) : Prop :=
  hasVarArg = false ∧
    (∃ st, structTypes[i]? = some st ∧ getStructName st.name = "__va_list_tag") ∧
    ∀ (j : Nat) (st : llvm.StructType), j < i → structTypes[j]? = some st →
      getStructName st.name ≠ "__va_list_tag"

/-- The handler after `k` calls of `getTypeDefName`. -/
def TypeHandler.afterCalls (handler : TypeHandler) : Nat → TypeHandler
  | 0 => handler
  | k + 1 => (handler.afterCalls k).getTypeDefName.2

/-- The name returned by the `k`-th call of `getTypeDefName` on a handler, `k` counted
from 0. -/
def TypeHandler.nthTypeDefName (handler : TypeHandler) (k : Nat) : String :=
  (handler.afterCalls k).getTypeDefName.1

/-- The value of a list of decimal digit characters. -/
def decimalValue (digits : List Char) : Nat :=
  digits.foldl (fun acc c => 10 * acc + (c.toNat - 48)) 0

/-- The number of `PointerType` levels at the head of a type. -/
def pointerDepth : CType → Nat
  | .PointerType inner => pointerDepth inner + 1
  | _ => 0

/-- The type at the end of the pointer chain of a type (the type itself when it is not a
pointer type). -/
def innermostType : CType → CType
  | .PointerType inner => innermostType inner
  | other => other

/-- Whether a type is an integer type (`llvm::isa<IntegerType>`). -/
def CType.isIntegerType : CType → Bool
  | .IntegerType _ _ => true
  | _ => false

/-- Whether a type is a pointer type (`llvm::isa<PointerType>`). -/
def CType.isPointerType : CType → Bool
  | .PointerType _ => true
  | _ => false

/-! ## Example inputs -/

/-- The program of the witness of C1: `CreateFunctionParameters` is completed and every
function record is `unsigned int f(unsigned char** argv)`. -/
def mainProgram : Program :=
  { typeHandler := {},
    structs := [],
    functions := fun _ =>
      { returnType := IntType true,
        parameters := [Value.new "argv" (.PointerType (.PointerType (CharType true)))] },
    hasVarArg := false,
    passes := [.CreateFunctionParameters] }

/-- The module of the witness of C1: the single function "main". -/
def mainModule : llvm.Module :=
  { functions := [{ address := 1, name := "main" }], getIdentifiedStructTypes := [] }

/-- The program of the witness of C2: as `mainProgram`, with no pass completed. -/
def freshMainProgram : Program := { mainProgram with passes := [] }

/-- A module whose only struct type is the variadic descriptor, declared by the input
with the usual four fields. -/
def varargModule : llvm.Module :=
  { functions := [],
    getIdentifiedStructTypes := [{ name := "struct.__va_list_tag", elements := [32, 32, 8, 8] }] }

/-- A program before any pass: nothing registered, `hasVarArg` clear. -/
def emptyProgram : Program :=
  { typeHandler := {},
    structs := [],
    functions := fun _ => { returnType := VoidType, parameters := [] },
    hasVarArg := false,
    passes := [] }

/-- A program with `hasVarArg` clear whose catalog already holds an aggregate named
"__va_list_tag". -/
def occupiedProgram : Program :=
  { emptyProgram with structs := [StructType.new "__va_list_tag"] }

/-- A module with four struct types, two of which carry the descriptor's name. -/
def mixedModule : llvm.Module :=
  { functions := [],
    getIdentifiedStructTypes :=
      [{ name := "struct.a", elements := [32] },
       { name := "struct.__va_list_tag", elements := [32, 32, 8, 8] },
       { name := "struct.b", elements := [] },
       { name := "__va_list_tag", elements := [64] }] }

/-- A module whose descriptor-named struct type is declared without any field. -/
def malformedModule : llvm.Module :=
  { functions := [],
    getIdentifiedStructTypes := [{ name := "struct.__va_list_tag", elements := [] }] }

/-- An asm node with three outputs: the first and the third unbound, the second bound. -/
def sampleAsm : AsmExpr :=
  AsmExpr.new "mov $1, $0"
    [("=r", none), ("=m", some { kind := .EK_Value }), ("=r", none)] [] ""

/-- A struct `s_pair` with the fields `unsigned char* text` and `long count[4]`. -/
def sampleStruct : Struct :=
  ((Struct.new "s_pair").addItem (.PointerType (CharType true)) "text").addItem
    (.ArrayType (.IntegerType .LongType false) 4) "count"

/-- Two index expressions: an `int` value and a struct element of type
`unsigned char*`. -/
def sampleIndices : List Expr :=
  [{ kind := .EK_Value, type := some (IntType false) },
   { kind := .EK_StructElement, type := some (.PointerType (CharType true)) }]

/-- A store whose every address holds the value `unsigned int x`. -/
def sampleStore : ValueStore := fun _ => Value.new "x" (IntType true)

/-- The store `sampleStore` after the unsigned flag of the type of the value at address 0
has been cleared. -/
def sampleStoreSigned : ValueStore :=
  fun address => if address = 0 then fixMainParameter (sampleStore 0) else sampleStore address

/-- A program with `CreateFunctionParameters` completed whose function named "main" is
`unsigned int main(unsigned int argc, void** argv, float scale)` and whose every other
function is `unsigned char f(unsigned char c)`. -/
def frameProgram : Program :=
  { typeHandler := {},
    structs := [],
    functions := fun func =>
      if func.name = "main" then
        { returnType := IntType true,
          parameters :=
            [Value.new "argc" (IntType true),
             Value.new "argv" (.PointerType (.PointerType VoidType)),
             Value.new "scale" (.FloatingPointType .FloatType)] }
      else
        { returnType := CharType true, parameters := [Value.new "c" (CharType true)] },
    hasVarArg := false,
    passes := [.CreateFunctionParameters] }

/-- A module with the functions "main" and "helper". -/
def frameModule : llvm.Module :=
  { functions := [{ address := 1, name := "main" }, { address := 2, name := "helper" }],
    getIdentifiedStructTypes := [] }

/-! ## Lemmas on the main-signature fixup -/

theorem convertToSignedIntPtr_pointer : ∀ inner : CType,
    convertToSignedIntPtr (.PointerType inner) = .PointerType (signedInnermost inner)
  | .PointerType inner => by
    rw [convertToSignedIntPtr, convertToSignedIntPtr_pointer inner, signedInnermost]
  | .IntegerType _ _ => by simp [convertToSignedIntPtr, signedInnermost]
  | .VoidType => by simp [convertToSignedIntPtr, signedInnermost]
  | .FloatingPointType _ => by simp [convertToSignedIntPtr, signedInnermost]
  | .ArrayType _ _ => by simp [convertToSignedIntPtr, signedInnermost]
  | .StructType _ => by simp [convertToSignedIntPtr, signedInnermost]
  | .FunctionPointerType _ _ => by simp [convertToSignedIntPtr, signedInnermost]

theorem fixMainParameter_type (param : Value) :
    (fixMainParameter param).getType = param.getType.map signedInnermost := by
  unfold fixMainParameter ExprBase.getType
  cases h : param.type with
  | none => simp
  | some t =>
    cases t <;> simp [signedInnermost, convertToSignedIntPtr_pointer]

theorem fixMainParameter_valueName (param : Value) :
    (fixMainParameter param).valueName = param.valueName := rfl

theorem fixMainParameter_kind (param : Value) :
    (fixMainParameter param).kind = param.kind := rfl

theorem signedInnermost_idem : ∀ t : CType, signedInnermost (signedInnermost t) = signedInnermost t
  | .PointerType inner => by simp [signedInnermost, signedInnermost_idem inner]
  | .IntegerType _ _ => by simp [signedInnermost]
  | .VoidType => by simp [signedInnermost]
  | .FloatingPointType _ => by simp [signedInnermost]
  | .ArrayType _ _ => by simp [signedInnermost]
  | .StructType _ => by simp [signedInnermost]
  | .FunctionPointerType _ _ => by simp [signedInnermost]

theorem signedInnermost_pointerNest (kind : IntKind) (u : Bool) : ∀ n : Nat,
    signedInnermost (pointerNest n (.IntegerType kind u)) = pointerNest n (.IntegerType kind false)
  | 0 => by simp [pointerNest, signedInnermost]
  | n + 1 => by simp [pointerNest, signedInnermost, signedInnermost_pointerNest kind u n]

theorem Value.ext_fields (a b : Value) (hk : a.kind = b.kind) (ht : a.getType = b.getType)
    (hn : a.valueName = b.valueName) : a = b := by
  cases a with
  | mk ba na =>
    cases b with
    | mk bb nb =>
      cases ba; cases bb
      simp only [ExprBase.getType] at hk ht hn
      subst hk; subst ht; subst hn; rfl

theorem fixMainParameter_idem (param : Value) :
    fixMainParameter (fixMainParameter param) = fixMainParameter param := by
  apply Value.ext_fields
  · rfl
  · rw [fixMainParameter_type, fixMainParameter_type]
    cases param.getType <;> simp [signedInnermost_idem]
  · rfl

theorem fixMainFunc_idem (myFunc : Func) : fixMainFunc (fixMainFunc myFunc) = fixMainFunc myFunc := by
  simp [fixMainFunc, List.map_map, Function.comp_def, fixMainParameter_idem]

theorem fixMainParametersStep_eq (program : Program) (func : llvm.Function) :
    fixMainParametersStep program func =
      if func.name = "main" then program.setFunction func (fixMainFunc (program.getFunction func))
      else program := by
  unfold fixMainParametersStep llvm.Function.getName fixMainFunc
  by_cases h : func.name = "main" <;> simp [h]

theorem fixMainParameters_fold_functions (fs : List llvm.Function) :
    ∀ (program : Program) (k : llvm.Function),
      (fs.foldl fixMainParametersStep program).functions k =
        if k.name = "main" ∧ k ∈ fs then fixMainFunc (program.functions k)
        else program.functions k := by
  induction fs with
  | nil => intro program k; simp
  | cons f fs ih =>
    intro program k
    rw [List.foldl_cons, ih, fixMainParametersStep_eq]
    by_cases hf : f.name = "main"
    · simp only [hf, if_true, Program.setFunction, Program.getFunction]
      by_cases hk : k = f
      · subst hk
        simp [hf, fixMainFunc_idem]
      · simp [hk]
    · simp only [hf, if_false]
      by_cases hk : k = f
      · subst hk
        simp [hf]
      · simp [hk]

theorem fixMainParameters_fold_frame (fs : List llvm.Function) :
    ∀ program : Program,
      (fs.foldl fixMainParametersStep program).passes = program.passes ∧
      (fs.foldl fixMainParametersStep program).structs = program.structs ∧
      (fs.foldl fixMainParametersStep program).hasVarArg = program.hasVarArg ∧
      (fs.foldl fixMainParametersStep program).typeHandler = program.typeHandler := by
  induction fs with
  | nil => intro program; simp
  | cons f fs ih =>
    intro program
    rw [List.foldl_cons]
    obtain ⟨h1, h2, h3, h4⟩ := ih (fixMainParametersStep program f)
    rw [h1, h2, h3, h4, fixMainParametersStep_eq]
    by_cases hf : f.name = "main" <;> simp [hf, Program.setFunction]

theorem fixMainParameters_completed (module : llvm.Module) (program : Program)
    (hpass : program.isPassCompleted .CreateFunctionParameters = true) :
    fixMainParameters module program =
      .completed ((module.functions.foldl fixMainParametersStep program).addPass
        .FixMainParameters) := by
  simp [fixMainParameters, hpass]

/-! ## Claims on `fixMainParameters` -/

/-- C1: when `CreateFunctionParameters` is completed, `fixMainParameters` returns, and
for every function of the module named "main" the return type afterwards is the signed
`int`, the parameters keep their positions, and a parameter whose type is an integer
type (`n = 0`) or a pointer nested `n >= 1` levels deep that ends in an integer type
has the `unsignedType` flag of that integer type cleared. -/
theorem C1_main_signature_signed (module : llvm.Module) (program : Program)
    (func : llvm.Function)
    (hpass : program.isPassCompleted .CreateFunctionParameters = true)
    (hfunc : func ∈ module.functions) (hname : func.getName = "main") :
    ∃ program', fixMainParameters module program = .completed program' ∧
      (program'.getFunction func).returnType = IntType false ∧
      (program'.getFunction func).parameters.length =
        (program.getFunction func).parameters.length ∧
      ∀ (i : Nat) (param : Value), (program.getFunction func).parameters[i]? = some param →
        ∃ param', (program'.getFunction func).parameters[i]? = some param' ∧
          ∀ (n : Nat) (kind : IntKind) (u : Bool),
            param.getType = some (pointerNest n (.IntegerType kind u)) →
            param'.getType = some (pointerNest n (.IntegerType kind false)) := by
  refine ⟨_, fixMainParameters_completed module program hpass, ?_⟩
  have hfun : ((module.functions.foldl fixMainParametersStep program).addPass
      .FixMainParameters).getFunction func = fixMainFunc (program.getFunction func) := by
    have h := fixMainParameters_fold_functions module.functions program func
    simp only [llvm.Function.getName] at hname
    simp only [hname, hfunc, and_self, if_true] at h
    simpa [Program.getFunction, Program.addPass] using h
  rw [hfun]
  refine ⟨rfl, by simp [fixMainFunc], ?_⟩
  intro i param hparam
  refine ⟨fixMainParameter param, by simp [fixMainFunc, hparam], ?_⟩
  intro n kind u htype
  rw [fixMainParameter_type, htype, Option.map_some', signedInnermost_pointerNest]

/-- Witness of C1: `unsigned int main(unsigned char**)` becomes `int main(char**)` with
the innermost `char` signed. -/
theorem C1_main_signature_signed_witness :
    ∃ program', fixMainParameters mainModule mainProgram = .completed program' ∧
      (program'.getFunction { address := 1, name := "main" }).returnType = IntType false ∧
      ∃ param', (program'.getFunction { address := 1, name := "main" }).parameters[0]? =
          some param' ∧
        param'.getType = some (.PointerType (.PointerType (CharType false))) := by
  obtain ⟨program', hrun, hret, _, hparams⟩ :=
    C1_main_signature_signed mainModule mainProgram { address := 1, name := "main" }
      (by decide) (by decide) rfl
  obtain ⟨param', hget, htype⟩ :=
    hparams 0 (Value.new "argv" (.PointerType (.PointerType (CharType true)))) rfl
  exact ⟨program', hrun, hret, param', hget, htype 2 .CharType true rfl⟩

/-- C2: without `CreateFunctionParameters` in the completed set `fixMainParameters`
aborts on its assertion with the program exactly as it was (no function record changed,
the completed set unchanged, so `FixMainParameters` is not added to it); with
`CreateFunctionParameters` completed the pass returns. -/
theorem C2_precondition_abort (module : llvm.Module) (program : Program) :
    (program.isPassCompleted .CreateFunctionParameters = false →
      fixMainParameters module program = .aborted program ∧
      (fixMainParameters module program).isCompleted = false ∧
      (∀ func, (fixMainParameters module program).program.getFunction func =
        program.getFunction func) ∧
      (fixMainParameters module program).program.passes = program.passes ∧
      (program.isPassCompleted .FixMainParameters = false →
        (fixMainParameters module program).program.isPassCompleted .FixMainParameters
          = false)) ∧
    (program.isPassCompleted .CreateFunctionParameters = true →
      (fixMainParameters module program).isCompleted = true) := by
  constructor
  · intro h
    have hrun : fixMainParameters module program = .aborted program := by
      simp [fixMainParameters, h]
    rw [hrun]
    exact ⟨rfl, rfl, fun _ => rfl, rfl, fun h2 => h2⟩
  · intro h
    rw [fixMainParameters_completed module program h]
    rfl

/-- Witness of C2: on a program without completed passes the pass aborts and leaves
`main` as `unsigned int main(unsigned char**)`; on `mainProgram` it returns. -/
theorem C2_precondition_abort_witness :
    ((fixMainParameters mainModule freshMainProgram).isCompleted = false ∧
      (fixMainParameters mainModule freshMainProgram).program.getFunction
          { address := 1, name := "main" } =
        freshMainProgram.getFunction { address := 1, name := "main" } ∧
      (fixMainParameters mainModule freshMainProgram).program.isPassCompleted
        .FixMainParameters = false) ∧
    (fixMainParameters mainModule mainProgram).isCompleted = true := by
  obtain ⟨_, hnot, hfun, _, hpass⟩ :=
    (C2_precondition_abort mainModule freshMainProgram).1 (by decide)
  exact ⟨⟨hnot, hfun _, hpass (by decide)⟩,
    (C2_precondition_abort mainModule mainProgram).2 (by decide)⟩

/-! ## Lemmas on `parseStructDeclarations` -/

theorem initVarargStruct_new (name : String) (program : Program) :
    initVarargStruct (StructType.new name) program = { name := name, items := varargItems } := rfl

theorem parseStructDeclarationsStep_eq (getStructName : String → String) (program : Program)
    (structType : llvm.StructType) :
    parseStructDeclarationsStep getStructName program structType =
      if program.hasVarArg = false ∧ getStructName structType.name = "__va_list_tag" then
        { program with
          structs := program.structs ++
            [{ name := getStructName structType.name, items := varargItems }],
          hasVarArg := true }
      else
        { program with
          structs := program.structs ++ [{ name := getStructName structType.name, items := [] }] } := by
  unfold parseStructDeclarationsStep llvm.StructType.getName
  by_cases h1 : program.hasVarArg = false
  · by_cases h2 : getStructName structType.name = "__va_list_tag"
    · simp [h1, h2, initVarargStruct_new, Program.addStruct]
    · simp [h1, h2, Program.addStruct, StructType.new]
  · simp [h1, Program.addStruct, StructType.new]

theorem parseStructDeclarations_fold (getStructName : String → String)
    (structTypes : List llvm.StructType) :
    ∀ program : Program,
      structTypes.foldl (parseStructDeclarationsStep getStructName) program =
        { program with
          structs := program.structs ++
            registeredStructs getStructName program.hasVarArg structTypes,
          hasVarArg := program.hasVarArg || structTypes.any (isVarargNamed getStructName) } := by
  induction structTypes with
  | nil => intro program; simp [registeredStructs]
  | cons st rest ih =>
    intro program
    rw [List.foldl_cons, ih, parseStructDeclarationsStep_eq]
    by_cases h1 : program.hasVarArg = false
    · by_cases h2 : getStructName st.name = "__va_list_tag"
      · simp [h1, h2, registeredStructs, isVarargNamed]
      · simp [h1, h2, registeredStructs, isVarargNamed]
    · have h3 : program.hasVarArg = true := by simpa using h1
      simp [h3, registeredStructs]

theorem parseStructDeclarations_eq (getStructName : String → String) (module : llvm.Module)
    (program : Program) :
    parseStructDeclarations getStructName module program =
      .completed
        { typeHandler := program.typeHandler,
          structs := program.structs ++
            registeredStructs getStructName program.hasVarArg module.getIdentifiedStructTypes,
          functions := program.functions,
          hasVarArg := program.hasVarArg ||
            module.getIdentifiedStructTypes.any (isVarargNamed getStructName),
          passes := program.passes.insert .ParseStructDeclarations } := by
  unfold parseStructDeclarations
  rw [parseStructDeclarations_fold]
  rfl

theorem registeredStructs_length (getStructName : String → String)
    (structTypes : List llvm.StructType) :
    ∀ hasVarArg : Bool,
      (registeredStructs getStructName hasVarArg structTypes).length = structTypes.length := by
  induction structTypes with
  | nil => intro hasVarArg; simp [registeredStructs]
  | cons st rest ih =>
    intro hasVarArg
    unfold registeredStructs
    split <;> simp [ih]

theorem registeredStructs_get (getStructName : String → String)
    (structTypes : List llvm.StructType) :
    ∀ (hasVarArg : Bool) (i : Nat) (st : llvm.StructType), structTypes[i]? = some st →
      ∃ strct, (registeredStructs getStructName hasVarArg structTypes)[i]? = some strct ∧
        strct.name = getStructName st.name ∧
        (isFirstVararg getStructName hasVarArg structTypes i → strct.items = varargItems) ∧
        (¬ isFirstVararg getStructName hasVarArg structTypes i → strct.items = []) := by
  induction structTypes with
  | nil => intro hasVarArg i st h; simp at h
  | cons hd rest ih =>
    intro hasVarArg i st h
    cases i with
    | zero =>
      simp only [List.getElem?_cons_zero, Option.some.injEq] at h
      subst h
      unfold registeredStructs
      by_cases hc : hasVarArg = false ∧ getStructName hd.name = "__va_list_tag"
      · simp only [hc, and_self, if_true, List.getElem?_cons_zero]
        refine ⟨_, rfl, hc.2.symm ▸ rfl, fun _ => rfl, fun hn => ?_⟩
        exact absurd ⟨by simp [hc.1], ⟨hd, by simp, hc.2⟩, fun j _ hj => absurd hj (Nat.not_lt_zero j)⟩ hn
      · simp only [hc, if_false, List.getElem?_cons_zero]
        refine ⟨_, rfl, rfl, fun hf => ?_, fun _ => rfl⟩
        obtain ⟨h1, ⟨st2, hst2, h2⟩, _⟩ := hf
        simp only [List.getElem?_cons_zero, Option.some.injEq] at hst2
        subst hst2
        exact absurd ⟨h1, h2⟩ hc
    | succ i =>
      simp only [List.getElem?_cons_succ] at h
      unfold registeredStructs
      by_cases hc : hasVarArg = false ∧ getStructName hd.name = "__va_list_tag"
      · simp only [hc, and_self, if_true, List.getElem?_cons_succ]
        obtain ⟨strct, hget, hname, _, hempty⟩ := ih true i st h
        refine ⟨strct, hget, hname, fun hf => ?_, fun _ => hempty ?_⟩
        · exact absurd hc.2 (hf.2.2 0 hd (Nat.succ_pos i) (by simp))
        · intro hf
          exact absurd hf.1 (by simp)
      · simp only [hc, if_false, List.getElem?_cons_succ]
        obtain ⟨strct, hget, hname, hfull, hempty⟩ := ih hasVarArg i st h
        refine ⟨strct, hget, hname, fun hf => hfull ?_, fun hn => hempty fun hf => hn ?_⟩
        · obtain ⟨h1, ⟨st2, hst2, h2⟩, h3⟩ := hf
          refine ⟨h1, ⟨st2, by simpa using hst2, h2⟩, fun j st3 hj hst3 => ?_⟩
          exact h3 (j + 1) st3 (Nat.succ_lt_succ hj) (by simpa using hst3)
        · obtain ⟨h1, ⟨st2, hst2, h2⟩, h3⟩ := hf
          refine ⟨h1, ⟨st2, by simpa using hst2, h2⟩, fun j st3 hj hst3 => ?_⟩
          cases j with
          | zero =>
            simp only [List.getElem?_cons_zero, Option.some.injEq] at hst3
            subst hst3
            intro hname2
            exact hc ⟨h1, hname2⟩
          | succ j =>
            exact h3 j st3 (Nat.lt_of_succ_lt_succ hj) (by simpa using hst3)

theorem registeredStructs_filter_set (getStructName : String → String)
    (structTypes : List llvm.StructType) :
    (registeredStructs getStructName true structTypes).filter
        (fun strct => strct.name == "__va_list_tag") =
      List.replicate (structTypes.countP (isVarargNamed getStructName))
        { name := "__va_list_tag", items := [] } := by
  induction structTypes with
  | nil => simp [registeredStructs]
  | cons hd rest ih =>
    unfold registeredStructs
    by_cases h : getStructName hd.name = "__va_list_tag"
    · simp [h, ih, isVarargNamed, List.replicate_succ]
    · simp [h, ih, isVarargNamed]

theorem registeredStructs_filter_clear (getStructName : String → String)
    (structTypes : List llvm.StructType) :
    (registeredStructs getStructName false structTypes).filter
        (fun strct => strct.name == "__va_list_tag") =
      if structTypes.countP (isVarargNamed getStructName) = 0 then []
      else { name := "__va_list_tag", items := varargItems } ::
        List.replicate (structTypes.countP (isVarargNamed getStructName) - 1)
          { name := "__va_list_tag", items := [] } := by
  induction structTypes with
  | nil => simp [registeredStructs]
  | cons hd rest ih =>
    unfold registeredStructs
    by_cases h : getStructName hd.name = "__va_list_tag"
    · simp [h, isVarargNamed, registeredStructs_filter_set]
    · simp only [h, and_false, if_false]
      rw [List.filter_cons_of_neg (by simpa using h), ih,
        List.countP_cons_of_neg _ _ (by simpa [isVarargNamed] using h)]

/-! ## Claims on `parseStructDeclarations`: the variadic descriptor -/

/-- C3, counterexample to the claim as stated: the module has exactly one struct type
with the descriptor's name and `hasVarArg` is clear, yet the catalog afterwards holds two
aggregates of that name, the one it held on entry and the synthesized one. -/
theorem C3_vararg_descriptor_not_unique :
    (varargModule.getIdentifiedStructTypes.countP (isVarargNamed sampleStructName) = 1 ∧
      occupiedProgram.hasVarArg = false) ∧
    (parseStructDeclarations sampleStructName varargModule occupiedProgram).program.structs.filter
        (fun strct => strct.name == "__va_list_tag") =
      [{ name := "__va_list_tag", items := [] },
       { name := "__va_list_tag",
         items := [(IntType true, "gp_offset"), (IntType true, "fp_offset"),
                   (.PointerType VoidType, "overflow_arg_area"),
                   (.PointerType VoidType, "reg_save_area")] }] := by
  decide

/-- C3 (amended): for a module with exactly one struct type whose normalized name is
"__va_list_tag" and a program with `hasVarArg` clear whose catalog holds no aggregate of
that name on entry, `parseStructDeclarations` returns, the catalog then holds exactly one
aggregate of that name, with the four fields (unsigned int, "gp_offset"),
(unsigned int, "fp_offset"), (pointer-to-void, "overflow_arg_area"),
(pointer-to-void, "reg_save_area") in this order whatever fields the input declares,
and `hasVarArg` is set. -/
theorem C3_vararg_descriptor_shape (getStructName : String → String) (module : llvm.Module)
    (program : Program)
    (hone : module.getIdentifiedStructTypes.countP (isVarargNamed getStructName) = 1)
    (hflag : program.hasVarArg = false)
    (hfresh : ∀ strct ∈ program.structs, strct.name ≠ "__va_list_tag") :
    ∃ program', parseStructDeclarations getStructName module program = .completed program' ∧
      program'.structs.filter (fun strct => strct.name == "__va_list_tag") =
        [{ name := "__va_list_tag",
           items := [(IntType true, "gp_offset"), (IntType true, "fp_offset"),
                     (.PointerType VoidType, "overflow_arg_area"),
                     (.PointerType VoidType, "reg_save_area")] }] ∧
      program'.hasVarArg = true := by
  refine ⟨_, parseStructDeclarations_eq getStructName module program, ?_, ?_⟩
  · have hnone : program.structs.filter (fun strct => strct.name == "__va_list_tag") = [] := by
      rw [List.filter_eq_nil_iff]
      intro strct hmem
      simpa using hfresh strct hmem
    simp only [List.filter_append, hnone, List.nil_append, hflag,
      registeredStructs_filter_clear, hone]
    rfl
  · have hany : module.getIdentifiedStructTypes.any (isVarargNamed getStructName) = true := by
      rw [List.any_eq_true]
      have hpos : 0 < module.getIdentifiedStructTypes.countP (isVarargNamed getStructName) := by
        omega
      obtain ⟨st, hmem, hst⟩ := List.countP_pos_iff.mp hpos
      exact ⟨st, hmem, hst⟩
    simp [hany]

/-- Witness of C3 (amended): the module with the one descriptor, the empty program. -/
theorem C3_vararg_descriptor_shape_witness :
    ∃ program', parseStructDeclarations sampleStructName varargModule emptyProgram =
        .completed program' ∧
      program'.structs.filter (fun strct => strct.name == "__va_list_tag") =
        [{ name := "__va_list_tag",
           items := [(IntType true, "gp_offset"), (IntType true, "fp_offset"),
                     (.PointerType VoidType, "overflow_arg_area"),
                     (.PointerType VoidType, "reg_save_area")] }] ∧
      program'.hasVarArg = true :=
  C3_vararg_descriptor_shape sampleStructName varargModule emptyProgram (by decide) (by decide)
    (by decide)

/-! ## Claims on the expression nodes -/

theorem addOutputExprLoop_first_unbound (expr : Option Expr)
    (output : List (String × Option Expr)) (i : Nat) (slot : String × Option Expr)
    (hslot : output[i]? = some slot) (hunbound : slot.2 = none) :
    ∀ (fuel j : Nat), j ≤ i → i - j < fuel →
      (∀ (k : Nat) (other : String × Option Expr), j ≤ k → k < i → output[k]? = some other →
        other.2 ≠ none) →
      AsmExpr.addOutputExprLoop expr fuel j output = output.set i (slot.1, expr) := by
  intro fuel
  induction fuel with
  | zero => intro j _ hfuel; omega
  | succ fuel ih =>
    intro j hj hfuel hbound
    unfold AsmExpr.addOutputExprLoop
    by_cases hji : j = i
    · subst hji
      simp [hslot, hunbound]
    · have hlt : j < i := Nat.lt_of_le_of_ne hj hji
      have hjlen : j < output.length := by
        have := (List.getElem?_eq_some_iff.mp hslot).1
        omega
      have hget : output[j]? = some output[j] := List.getElem?_eq_getElem hjlen
      have hne : (output[j]).2 ≠ none := hbound j _ (Nat.le_refl j) hlt hget
      have hnot : (output[j]).2.isNone = false := by
        cases h : (output[j]).2 with
        | none => exact absurd h hne
        | some _ => rfl
      simp only [hget, hnot]
      exact ih (j + 1) hlt (by omega) (fun k other hk hki => hbound k other (by omega) hki)

/-- C4: if `i` is the least index with `pos <= i`, `i < output.size()` and `output[i]`
unbound, then `addOutputExpr(expr, pos)` binds exactly that slot: afterwards `output[i]`
holds `expr` under its old operand name, and the output list is the old one with only
slot `i` replaced. -/
theorem C4_addOutputExpr_binds_first_unbound (a : AsmExpr) (expr : Option Expr) (pos i : Nat)
    (slot : String × Option Expr)
    (hpos : pos ≤ i) (hslot : a.output[i]? = some slot) (hunbound : slot.2 = none)
    (hleast : ∀ (k : Nat) (other : String × Option Expr), pos ≤ k → k < i →
      a.output[k]? = some other → other.2 ≠ none) :
    (a.addOutputExpr expr pos).output[i]? = some (slot.1, expr) ∧
    (a.addOutputExpr expr pos).output = a.output.set i (slot.1, expr) := by
  have hlen : i < a.output.length := (List.getElem?_eq_some_iff.mp hslot).1
  have hloop : (a.addOutputExpr expr pos).output = a.output.set i (slot.1, expr) :=
    addOutputExprLoop_first_unbound expr a.output i slot hslot hunbound
      (a.output.length - pos) pos hpos (by omega) hleast
  refine ⟨?_, hloop⟩
  rw [hloop]
  simp [hlen]

/-- Witness of C4: from position 1 the scan skips the bound second output and binds
the third one. -/
theorem C4_addOutputExpr_binds_first_unbound_witness :
    (sampleAsm.addOutputExpr (some { kind := .EK_CallExpr }) 1).output[2]? =
        some ("=r", some { kind := .EK_CallExpr }) ∧
      (sampleAsm.addOutputExpr (some { kind := .EK_CallExpr }) 1).output =
        sampleAsm.output.set 2 ("=r", some { kind := .EK_CallExpr }) :=
  C4_addOutputExpr_binds_first_unbound sampleAsm (some { kind := .EK_CallExpr }) 1 2
    ("=r", none) (by decide) (by decide) rfl (by
      intro k other h1 h2 hk
      have hk1 : k = 1 := by omega
      subst hk1
      have : other = ("=m", some { kind := .EK_Value }) := by
        simpa [sampleAsm, AsmExpr.new] using hk.symm
      subst this
      simp)

theorem addOutputExprLoop_fuel (expr : Option Expr) (output : List (String × Option Expr)) :
    ∀ (fuel j : Nat), output.length - j ≤ fuel →
      AsmExpr.addOutputExprLoop expr fuel j output =
        AsmExpr.addOutputExprLoop expr (output.length - j) j output := by
  intro fuel
  induction fuel with
  | zero =>
    intro j h
    have h0 : output.length - j = 0 := by omega
    rw [h0]
  | succ fuel ih =>
    intro j h
    by_cases hj : j < output.length
    · have hsucc : output.length - j = (output.length - (j + 1)) + 1 := by omega
      rw [hsucc]
      unfold AsmExpr.addOutputExprLoop
      rw [ih (j + 1) (by omega)]
    · have h0 : output.length - j = 0 := by omega
      have hnone : output[j]? = none := List.getElem?_eq_none (by omega)
      rw [h0]
      unfold AsmExpr.addOutputExprLoop
      simp [hnone]

mutual
theorem CType.clone_eq : ∀ t : CType, t.clone = t
  | .VoidType => rfl
  | .IntegerType _ _ => rfl
  | .FloatingPointType _ => rfl
  | .PointerType t => by rw [CType.clone, CType.clone_eq t]
  | .ArrayType t _ => by rw [CType.clone, CType.clone_eq t]
  | .StructType _ => rfl
  | .FunctionPointerType r ps => by rw [CType.clone, CType.clone_eq r, CTypeList.list_clone_eq ps]
theorem CTypeList.list_clone_eq : ∀ ts : CTypeList, ts.clone = ts
  | .nil => rfl
  | .cons t ts => by rw [CTypeList.clone, CType.clone_eq t, CTypeList.list_clone_eq ts]
end

/-- C5: for a field index `element` smaller than the number of fields of `strct`, the
constructor `StructElement(strct, expr, element)` succeeds and the result type of the
node is the clone of the type of the field at that index, which is structurally equal to
that declared field type. -/
theorem C5_structElement_field_type (strct : Struct) (expr : Option Expr) (element : Nat)
    (h : element < strct.items.length) :
    ∃ node, StructElement.new strct expr element = .ok node ∧
      node.getType = some (strct.items[element]).1.clone ∧
      node.getType = some (strct.items[element]).1 ∧
      node.getKind = .EK_StructElement ∧ node.strct = strct ∧ node.expr = expr ∧
      node.element = element := by
  have hget : strct.items[element]? = some strct.items[element] := List.getElem?_eq_getElem h
  have hrun : StructElement.new strct expr element =
      .ok { toExprBase := ExprBase.setType { kind := .EK_StructElement }
              (strct.items[element]).1.clone,
            strct := strct, expr := expr, element := element } := by
    simp only [StructElement.new, hget]
  refine ⟨_, hrun, rfl, ?_, rfl, rfl, rfl, rfl⟩
  simp [ExprBase.getType, ExprBase.setType, CType.clone_eq]

/-- Witness of C5: the element of `s_pair` at index 1 has the type `long [4]`. -/
theorem C5_structElement_field_type_witness :
    ∃ node, StructElement.new sampleStruct none 1 = .ok node ∧
      node.getType = some (sampleStruct.items[1]).1.clone ∧
      node.getType = some (sampleStruct.items[1]).1 ∧
      node.getKind = .EK_StructElement ∧ node.strct = sampleStruct ∧ node.expr = none ∧
      node.element = 1 :=
  C5_structElement_field_type sampleStruct none 1 (by decide)

/-- C6: `Struct::addItem(type, name)` appends: a struct with `n` fields has `n + 1`
fields afterwards, field `n` is `(type, name)`, the fields `0..n-1` are unchanged and in
the same order, and the name and the type of the struct are unchanged; hence, after a
sequence of `addItem` calls on a new struct, the field list is the sequence of added
fields and the `k`-th added field has index `k - 1`. -/
theorem C6_addItem_appends (s : Struct) (type : CType) (name : String) :
    (s.addItem type name).items.length = s.items.length + 1 ∧
    (s.addItem type name).items[s.items.length]? = some (type, name) ∧
    (∀ i, i < s.items.length → (s.addItem type name).items[i]? = s.items[i]?) ∧
    (s.addItem type name).items.take s.items.length = s.items ∧
    (s.addItem type name).name = s.name ∧
    (s.addItem type name).toExprBase = s.toExprBase ∧
    ∀ (structName : String) (fields : List (CType × String)),
      (fields.foldl (fun strct field => strct.addItem field.1 field.2)
        (Struct.new structName)).items = fields ∧
      ∀ k, 1 ≤ k → k ≤ fields.length →
        (fields.foldl (fun strct field => strct.addItem field.1 field.2)
          (Struct.new structName)).items[k - 1]? = fields[k - 1]? := by
  have hfold : ∀ (fields : List (CType × String)) (strct : Struct),
      (fields.foldl (fun strct field => strct.addItem field.1 field.2) strct).items =
        strct.items ++ fields := by
    intro fields
    induction fields with
    | nil => intro strct; simp
    | cons f fs ih =>
      intro strct
      rw [List.foldl_cons, ih]
      simp [Struct.addItem]
  refine ⟨by simp [Struct.addItem], by simp [Struct.addItem], ?_, by simp [Struct.addItem],
    rfl, rfl, ?_⟩
  · intro i hi
    simp [Struct.addItem, List.getElem?_append_left hi]
  · intro structName fields
    have hitems : (fields.foldl (fun strct field => strct.addItem field.1 field.2)
        (Struct.new structName)).items = fields := by
      rw [hfold fields (Struct.new structName)]
      simp [Struct.new]
    exact ⟨hitems, fun k _ _ => by rw [hitems]⟩

/-- C7: every `Value`, `GlobalValue`, `CallExpr` and `GepExpr` node reports
`isSimple() = true`, whatever it was constructed from; no `IfExpr`, `SwitchExpr` or
`AsmExpr` node reports `isSimple() = true`. -/
theorem C7_simplicity_classification :
    (∀ node : Value, node.isSimple = true) ∧
    (∀ node : GlobalValue, node.isSimple = true) ∧
    (∀ node : CallExpr, node.isSimple = true) ∧
    (∀ node : GepExpr, node.isSimple = true) ∧
    (∀ (valueName : String) (type : CType), (Value.new valueName type).isSimple = true) ∧
    (∀ (valueName : String) (type : CType) (kind : ExprKind),
      (Value.newOfKind valueName type kind).isSimple = true) ∧
    (∀ (varName value : String) (type : CType),
      (GlobalValue.new varName value type).isSimple = true) ∧
    (∀ (funcValue : Option Expr) (funcName : String) (params : List (Option Expr))
      (type : CType), (CallExpr.new funcValue funcName params type).isSimple = true) ∧
    (∀ node : IfExpr, node.isSimple ≠ true) ∧
    (∀ node : SwitchExpr, node.isSimple ≠ true) ∧
    (∀ node : AsmExpr, node.isSimple ≠ true) :=
  ⟨fun _ => rfl, fun _ => rfl, fun _ => rfl, fun _ => rfl, fun _ _ => rfl, fun _ _ _ => rfl,
    fun _ _ _ => rfl, fun _ _ _ _ => rfl,
    fun _ => by simp [IfExpr.isSimple, ExprBase.isSimple],
    fun _ => by simp [SwitchExpr.isSimple, ExprBase.isSimple],
    fun _ => by simp [AsmExpr.isSimple, ExprBase.isSimple]⟩

/-- C8: `Value::classof(e)` holds iff the kind of `e` is `EK_Value` or `EK_GlobalValue`,
`GlobalValue::classof(e)` holds iff the kind is `EK_GlobalValue`, so the second implies
the first; a node built by the `GlobalValue` constructor passes both tests, a node built
by the two-argument `Value` constructor passes `Value::classof` and fails
`GlobalValue::classof`. -/
theorem C8_value_classof (e : Expr) :
    (Value.classof e = true ↔ e.getKind = .EK_Value ∨ e.getKind = .EK_GlobalValue) ∧
    (GlobalValue.classof e = true ↔ e.getKind = .EK_GlobalValue) ∧
    (GlobalValue.classof e = true → Value.classof e = true) ∧
    (∀ (varName value : String) (type : CType),
      Value.classof (GlobalValue.new varName value type).toExprBase = true ∧
      GlobalValue.classof (GlobalValue.new varName value type).toExprBase = true) ∧
    (∀ (valueName : String) (type : CType),
      Value.classof (Value.new valueName type).toExprBase = true ∧
      GlobalValue.classof (Value.new valueName type).toExprBase = false) := by
  refine ⟨by simp [Value.classof], by simp [GlobalValue.classof], ?_, fun _ _ _ => ⟨rfl, rfl⟩,
    fun _ _ => ⟨rfl, rfl⟩⟩
  intro h
  have hk : e.getKind = .EK_GlobalValue := by simpa [GlobalValue.classof] using h
  simp [Value.classof, hk]

/-! ## Claims on `parseStructDeclarations`: registration and malformed input -/

theorem registeredStructs_names (getStructName : String → String) :
    ∀ (structTypes others : List llvm.StructType) (hasVarArg : Bool),
      others.map (fun st => st.name) = structTypes.map (fun st => st.name) →
      registeredStructs getStructName hasVarArg others =
          registeredStructs getStructName hasVarArg structTypes ∧
        others.any (isVarargNamed getStructName) =
          structTypes.any (isVarargNamed getStructName) := by
  intro structTypes
  induction structTypes with
  | nil =>
    intro others hasVarArg h
    have : others = [] := by simpa using h
    subst this
    exact ⟨rfl, rfl⟩
  | cons hd rest ih =>
    intro others hasVarArg h
    cases others with
    | nil => simp at h
    | cons hd2 rest2 =>
      simp only [List.map_cons, List.cons.injEq] at h
      obtain ⟨hname, hrest⟩ := h
      unfold registeredStructs
      simp only [List.any_cons, isVarargNamed, hname]
      refine ⟨?_, ?_⟩
      · split
        · rw [(ih rest2 true hrest).1]
        · rw [(ih rest2 hasVarArg hrest).1]
      · have := (ih rest2 hasVarArg hrest).2
        simp only [isVarargNamed] at this
        rw [this]

/-- C9: `parseStructDeclarations` returns, and it appends to the catalog one aggregate
per identified struct type of the module, in enumeration order, under the normalized
name; the aggregate at index `i` has the four descriptor fields exactly when `hasVarArg`
was clear on entry, the name is "__va_list_tag" and no earlier struct type has that
normalized name, and has no fields otherwise. `hasVarArg` is set afterwards iff it was
set before or some struct type of the module has that normalized name; once set it stays
set. -/
theorem C9_struct_registration (getStructName : String → String) (module : llvm.Module)
    (program : Program) :
    ∃ program' added,
      parseStructDeclarations getStructName module program = .completed program' ∧
      program'.structs = program.structs ++ added ∧
      added.length = module.getIdentifiedStructTypes.length ∧
      (∀ (i : Nat) (st : llvm.StructType), module.getIdentifiedStructTypes[i]? = some st →
        ∃ strct, added[i]? = some strct ∧ strct.name = getStructName st.name ∧
          ((program.hasVarArg = false ∧ getStructName st.name = "__va_list_tag" ∧
              ∀ (j : Nat) (earlier : llvm.StructType), j < i →
                module.getIdentifiedStructTypes[j]? = some earlier →
                getStructName earlier.name ≠ "__va_list_tag") →
            strct.items = varargItems) ∧
          (¬ (program.hasVarArg = false ∧ getStructName st.name = "__va_list_tag" ∧
              ∀ (j : Nat) (earlier : llvm.StructType), j < i →
                module.getIdentifiedStructTypes[j]? = some earlier →
                getStructName earlier.name ≠ "__va_list_tag") →
            strct.items = [])) ∧
      (program'.hasVarArg = true ↔
        program.hasVarArg = true ∨
          ∃ st ∈ module.getIdentifiedStructTypes, getStructName st.name = "__va_list_tag") ∧
      (program.hasVarArg = true → program'.hasVarArg = true) := by
  refine ⟨_, registeredStructs getStructName program.hasVarArg module.getIdentifiedStructTypes,
    parseStructDeclarations_eq getStructName module program, rfl,
    registeredStructs_length _ _ _, ?_, ?_, ?_⟩
  · intro i st hst
    obtain ⟨strct, hget, hname, hfull, hempty⟩ :=
      registeredStructs_get getStructName module.getIdentifiedStructTypes program.hasVarArg i st hst
    refine ⟨strct, hget, hname, fun hc => hfull ⟨hc.1, ⟨st, hst, hc.2.1⟩, hc.2.2⟩,
      fun hn => hempty fun hf => hn ?_⟩
    obtain ⟨h1, ⟨st2, hst2, h2⟩, h3⟩ := hf
    have : st2 = st := by
      rw [hst] at hst2
      exact (Option.some.inj hst2).symm
    subst this
    exact ⟨h1, h2, h3⟩
  · simp [isVarargNamed]
  · intro h
    simp [h]

/-- Witness of C9: of the two struct types of `mixedModule` named "__va_list_tag" the
first (index 1) is synthesized with the four fields and the second (index 3) is
registered without fields; four aggregates are added and `hasVarArg` is set. -/
theorem C9_struct_registration_witness :
    ∃ program' added,
      parseStructDeclarations sampleStructName mixedModule emptyProgram = .completed program' ∧
      program'.structs = emptyProgram.structs ++ added ∧
      added.length = 4 ∧
      added[1]? = some { name := "__va_list_tag", items := varargItems } ∧
      added[3]? = some { name := "__va_list_tag", items := [] } ∧
      program'.hasVarArg = true := by
  obtain ⟨program', added, hrun, hstructs, hlen, hitems, hflag, _⟩ :=
    C9_struct_registration sampleStructName mixedModule emptyProgram
  refine ⟨program', added, hrun, hstructs, hlen, ?_, ?_, ?_⟩
  · obtain ⟨strct, hget, hname, hfull, _⟩ :=
      hitems 1 { name := "struct.__va_list_tag", elements := [32, 32, 8, 8] } rfl
    have hcond := hfull ⟨rfl, by decide, fun j earlier hj hearlier => by
      have hj0 : j = 0 := by omega
      subst hj0
      have : earlier = { name := "struct.a", elements := [32] } := by
        simpa [mixedModule] using hearlier.symm
      subst this
      decide⟩
    have hname2 : strct.name = "__va_list_tag" := by rw [hname]; decide
    rw [hget]
    cases strct
    simp only at hname2 hcond
    rw [hname2, hcond]
  · obtain ⟨strct, hget, hname, _, hempty⟩ :=
      hitems 3 { name := "__va_list_tag", elements := [64] } rfl
    have hcond := hempty (fun hc =>
      hc.2.2 1 { name := "struct.__va_list_tag", elements := [32, 32, 8, 8] } (by decide) rfl
        (by decide))
    have hname2 : strct.name = "__va_list_tag" := by rw [hname]; decide
    rw [hget]
    cases strct
    simp only at hname2 hcond
    rw [hname2, hcond]
  · exact hflag.mpr (Or.inr ⟨{ name := "__va_list_tag", elements := [64] }, by decide, by decide⟩)

/-- C10, counterexample to the claim as stated: the descriptor-named struct type is
declared with no field instead of four, and the pass returns and registers the
synthesized aggregate for it. -/
theorem C10_wrong_field_count_completes :
    malformedModule.getIdentifiedStructTypes.map
        (fun st => (sampleStructName st.name, st.elements.length)) = [("__va_list_tag", 0)] ∧
    (parseStructDeclarations sampleStructName malformedModule emptyProgram).isCompleted = true ∧
    (parseStructDeclarations sampleStructName malformedModule emptyProgram).program.structs =
      [{ name := "__va_list_tag", items := varargItems }] := by
  decide

/-- C10 (amended): a descriptor-named struct type is not reported, whatever number of
fields its declaration has (four or not). The pass returns; when `hasVarArg` was clear on entry the
synthesized four-field aggregate is in the catalog, otherwise an aggregate of that name
without fields is; and the pass gives the same result for every module whose struct types
have the same names, whatever fields they declare. -/
theorem C10_wrong_field_count_not_reported (getStructName : String → String)
    (module : llvm.Module) (program : Program) (st : llvm.StructType)
    (hmem : st ∈ module.getIdentifiedStructTypes)
    (hname : getStructName st.name = "__va_list_tag") :
    (parseStructDeclarations getStructName module program).isCompleted = true ∧
    (program.hasVarArg = false →
      { name := "__va_list_tag", items := varargItems } ∈
        (parseStructDeclarations getStructName module program).program.structs) ∧
    (program.hasVarArg = true →
      { name := "__va_list_tag", items := [] } ∈
        (parseStructDeclarations getStructName module program).program.structs) ∧
    ∀ other : llvm.Module,
      other.getIdentifiedStructTypes.map (fun st => st.name) =
          module.getIdentifiedStructTypes.map (fun st => st.name) →
        parseStructDeclarations getStructName other program =
          parseStructDeclarations getStructName module program := by
  have hpos : 0 < module.getIdentifiedStructTypes.countP (isVarargNamed getStructName) :=
    List.countP_pos_iff.mpr ⟨st, hmem, by simp [isVarargNamed, hname]⟩
  refine ⟨by rw [parseStructDeclarations_eq]; rfl, ?_, ?_, ?_⟩
  · intro hflag
    rw [parseStructDeclarations_eq]
    have hin : ({ name := "__va_list_tag", items := varargItems } : StructType) ∈
        (registeredStructs getStructName false module.getIdentifiedStructTypes).filter
          (fun strct => strct.name == "__va_list_tag") := by
      rw [registeredStructs_filter_clear, if_neg (by omega)]
      exact List.mem_cons_self _ _
    simp only [PassResult.program, hflag]
    exact List.mem_append_right _ (List.mem_filter.mp hin).1
  · intro hflag
    rw [parseStructDeclarations_eq]
    have hin : ({ name := "__va_list_tag", items := [] } : StructType) ∈
        (registeredStructs getStructName true module.getIdentifiedStructTypes).filter
          (fun strct => strct.name == "__va_list_tag") := by
      rw [registeredStructs_filter_set]
      exact List.mem_replicate.mpr ⟨by omega, rfl⟩
    simp only [PassResult.program, hflag]
    exact List.mem_append_right _ (List.mem_filter.mp hin).1
  · intro other hnames
    rw [parseStructDeclarations_eq, parseStructDeclarations_eq]
    obtain ⟨h1, h2⟩ := registeredStructs_names getStructName module.getIdentifiedStructTypes
      other.getIdentifiedStructTypes program.hasVarArg hnames
    rw [h1, h2]

/-- Witness of C10 (amended): the module that declares the descriptor without fields
is processed without error, the four-field aggregate is registered, and the result is
the one of the module that declares the descriptor with four fields. -/
theorem C10_wrong_field_count_not_reported_witness :
    (parseStructDeclarations sampleStructName malformedModule emptyProgram).isCompleted = true ∧
    { name := "__va_list_tag", items := varargItems } ∈
      (parseStructDeclarations sampleStructName malformedModule emptyProgram).program.structs ∧
    parseStructDeclarations sampleStructName varargModule emptyProgram =
      parseStructDeclarations sampleStructName malformedModule emptyProgram :=
  have h := C10_wrong_field_count_not_reported sampleStructName malformedModule emptyProgram
    { name := "struct.__va_list_tag", elements := [] } (by decide) (by decide)
  ⟨h.1, h.2.1 rfl, h.2.2.2 varargModule (by decide)⟩

/-! ## Claims on `TypeHandler::getTypeDefName` -/

theorem digitChar_value (d : Nat) (h : d < 10) : (Nat.digitChar d).toNat - 48 = d := by
  interval_cases d <;> rfl

theorem toDigitsCore_value : ∀ (fuel n : Nat) (ds : List Char), n < fuel →
    (Nat.toDigitsCore 10 fuel n ds).foldl (fun acc c => 10 * acc + (c.toNat - 48)) 0 =
      ds.foldl (fun acc c => 10 * acc + (c.toNat - 48)) n := by
  intro fuel
  induction fuel with
  | zero => intro n ds h; omega
  | succ fuel ih =>
    intro n ds h
    unfold Nat.toDigitsCore
    by_cases hz : n / 10 = 0
    · have hn : n < 10 := by omega
      simp only [hz, if_true, List.foldl_cons, Nat.mul_zero, Nat.zero_add]
      rw [digitChar_value _ (Nat.mod_lt n (by decide)), Nat.mod_eq_of_lt hn]
    · simp only [hz, if_false]
      rw [ih (n / 10) _ (by omega)]
      simp only [List.foldl_cons]
      rw [digitChar_value _ (Nat.mod_lt n (by decide))]
      congr 1
      omega

theorem decimalValue_repr (n : Nat) : decimalValue (Nat.repr n).data = n := by
  unfold decimalValue Nat.repr Nat.toDigits
  simp only [List.asString]
  rw [toDigitsCore_value (n + 1) n [] (Nat.lt_succ_self n)]
  rfl

theorem toString_nat_injective (a b : Nat) (h : toString a = toString b) : a = b := by
  have h2 : Nat.repr a = Nat.repr b := h
  rw [← decimalValue_repr a, ← decimalValue_repr b, h2]

theorem typeDefName_injective (a b : Nat)
    (h : "typeDef_" ++ toString a = "typeDef_" ++ toString b) : a = b := by
  apply toString_nat_injective
  have hdata := congrArg String.data h
  simp only [String.data_append] at hdata
  exact String.ext (List.append_cancel_left hdata)

theorem afterCalls_typeDefCount (handler : TypeHandler)
    (hcount : handler.typeDefCount < 4294967296) :
    ∀ k : Nat, (handler.afterCalls k).typeDefCount =
      (handler.typeDefCount + k) % 4294967296 := by
  intro k
  induction k with
  | zero => simp only [TypeHandler.afterCalls]; omega
  | succ k ih =>
    simp only [TypeHandler.afterCalls, TypeHandler.getTypeDefName]
    rw [ih]
    omega

/-- C11, counterexample to the claim as stated: on a new `TypeHandler` the call number
`2^32` returns "typeDef_0", the name the call number 0 returned, and not "typeDef_"
followed by `4294967296`; the call before it takes the counter from `4294967295` to 0. -/
theorem C11_typedef_name_repeats :
    (({} : TypeHandler).nthTypeDefName 4294967296 = "typeDef_0" ∧
      ({} : TypeHandler).nthTypeDefName 0 = "typeDef_0" ∧
      "typeDef_0" ≠ "typeDef_" ++ toString 4294967296) ∧
    (({} : TypeHandler).afterCalls 4294967295).typeDefCount = 4294967295 ∧
    (({} : TypeHandler).afterCalls 4294967295).getTypeDefName.2.typeDefCount = 0 := by
  have h0 : ({} : TypeHandler).typeDefCount < 4294967296 := by decide
  have hcount := afterCalls_typeDefCount {} h0
  refine ⟨⟨?_, rfl, ?_⟩, ?_, ?_⟩
  · simp only [TypeHandler.nthTypeDefName, TypeHandler.getTypeDefName, hcount]
    rfl
  · intro h
    have := typeDefName_injective 0 4294967296 h
    omega
  · rw [hcount]; rfl
  · simp only [TypeHandler.getTypeDefName, hcount]

/-- C11 (amended): one call of `getTypeDefName` returns "typeDef_" followed by the
decimal representation of the counter and, unless the counter is `2^32 - 1`, increases
the counter by exactly one; so for `k < 2^32` the `k`-th call on a new `TypeHandler`
(`k` counted from 0) returns "typeDef_" followed by the decimal representation of `k`,
and any two distinct calls among the first `2^32` return distinct names. -/
theorem C11_typedef_names_fresh (k : Nat) (hk : k < 4294967296) :
    (∀ handler : TypeHandler,
      handler.getTypeDefName.1 = "typeDef_" ++ toString handler.typeDefCount ∧
      (handler.typeDefCount + 1 < 4294967296 →
        handler.getTypeDefName.2.typeDefCount = handler.typeDefCount + 1)) ∧
    ({} : TypeHandler).nthTypeDefName k = "typeDef_" ++ toString k ∧
    (({} : TypeHandler).afterCalls k).typeDefCount = k ∧
    (k + 1 < 4294967296 → (({} : TypeHandler).afterCalls (k + 1)).typeDefCount = k + 1) ∧
    ∀ j : Nat, j < 4294967296 → j ≠ k →
      ({} : TypeHandler).nthTypeDefName j ≠ ({} : TypeHandler).nthTypeDefName k := by
  have h0 : ({} : TypeHandler).typeDefCount < 4294967296 := by decide
  have hzero : ({} : TypeHandler).typeDefCount = 0 := rfl
  have hcount : ∀ n, n < 4294967296 → (({} : TypeHandler).afterCalls n).typeDefCount = n := by
    intro n hn
    rw [afterCalls_typeDefCount {} h0, hzero]
    omega
  have hname : ∀ n, n < 4294967296 →
      ({} : TypeHandler).nthTypeDefName n = "typeDef_" ++ toString n := by
    intro n hn
    simp only [TypeHandler.nthTypeDefName, TypeHandler.getTypeDefName, hcount n hn]
  refine ⟨fun handler => ⟨rfl, fun hlt => ?_⟩, hname k hk, hcount k hk,
    fun hlt => hcount (k + 1) hlt, ?_⟩
  · simp only [TypeHandler.getTypeDefName]
    omega
  · intro j hj hjk heq
    rw [hname j hj, hname k hk] at heq
    exact hjk (typeDefName_injective j k heq)

/-- Witness of C11 (amended): the call number 7 on a new `TypeHandler` returns
"typeDef_7" and differs from the call number 3. -/
theorem C11_typedef_names_fresh_witness :
    ({} : TypeHandler).nthTypeDefName 7 = "typeDef_7" ∧
    (({} : TypeHandler).afterCalls 7).typeDefCount = 7 ∧
    ({} : TypeHandler).nthTypeDefName 3 ≠ ({} : TypeHandler).nthTypeDefName 7 :=
  have h := C11_typedef_names_fresh 7 (by decide)
  ⟨h.2.1, h.2.2.1, h.2.2.2.2 3 (by decide) (by decide)⟩

/-! ## Claims on the typed node constructors -/

theorem lastIndex_eq_mod (size : Nat) (h : size < 18446744073709551616) :
    lastIndex size = (size + 18446744073709551615) % 18446744073709551616 := by
  unfold lastIndex
  split <;> omega

theorem moveIndices_eq (indices : List Expr) : moveIndices indices = indices := by
  have h : ∀ (l own : List Expr), l.foldl (fun own idx => own ++ [idx]) own = own ++ l := by
    intro l
    induction l with
    | nil => intro own; simp
    | cons x xs ih => intro own; rw [List.foldl_cons, ih]; simp
  simpa [moveIndices] using h indices []

theorem getElem?_lastIndex (indices : List Expr) (hne : indices ≠ []) :
    indices[lastIndex indices.length]? = some (indices.getLast hne) := by
  have hlen : indices.length ≠ 0 := fun h => hne (List.length_eq_zero.mp h)
  have hlt : indices.length - 1 < indices.length := by omega
  simp only [lastIndex, hlen, if_false]
  rw [List.getElem?_eq_getElem hlt, List.getLast_eq_getElem]

theorem getElem?_lastIndex_nil : ([] : List Expr)[lastIndex ([] : List Expr).length]? = none := by
  simp

/-- C12: for `PointerShift(ptrType, pointer, move)`, if `ptrType` is a pointer type the
result type of the node is the clone of its pointee type, structurally equal to it; if
`ptrType` is absent or any type that is not a pointer type, the result type is unset. -/
theorem C12_pointerShift_type (ptrType : Option CType) (pointer move : Option Expr) :
    (∀ type : CType, ptrType = some (.PointerType type) →
      (PointerShift.new ptrType pointer move).getType = some type.clone ∧
      (PointerShift.new ptrType pointer move).getType = some type) ∧
    ((ptrType = none ∨ ∃ other, ptrType = some other ∧ other.isPointerType = false) →
      (PointerShift.new ptrType pointer move).getType = none) ∧
    (PointerShift.new ptrType pointer move).getKind = .EK_PointerShift ∧
    (PointerShift.new ptrType pointer move).ptrType = ptrType ∧
    (PointerShift.new ptrType pointer move).pointer = pointer ∧
    (PointerShift.new ptrType pointer move).move = move := by
  refine ⟨?_, ?_, ?_, ?_, ?_, ?_⟩
  · intro type h
    subst h
    exact ⟨rfl, by simp [PointerShift.new, ExprBase.getType, ExprBase.setType, CType.clone_eq]⟩
  · intro h
    rcases h with h | ⟨other, h, hnot⟩
    · subst h; rfl
    · subst h
      cases other <;> first | rfl | simp [CType.isPointerType] at hnot
  all_goals
    unfold PointerShift.new
    split <;> rfl

/-- C13: for a non-empty list of index expressions, every `ExtractValueExpr` and every
`GepExpr` built from it holds the same index expressions in the same order and has the
result type of the last index expression; when the last index expression has a result
type both constructors succeed. -/
theorem C13_index_chain_type (indices : List Expr) (hne : indices ≠ []) :
    (∀ node, ExtractValueExpr.new indices = .ok node →
      node.indices = indices ∧ node.getType = (indices.getLast hne).getType ∧
      node.getKind = .EK_ExtractValueExpr) ∧
    (∀ node, GepExpr.new indices = .ok node →
      node.indices = indices ∧ node.getType = (indices.getLast hne).getType ∧
      node.getKind = .EK_GepExpr) ∧
    (∀ type : CType, (indices.getLast hne).getType = some type →
      (∃ node, ExtractValueExpr.new indices = .ok node ∧ node.indices = indices ∧
        node.getType = some type) ∧
      (∃ node, GepExpr.new indices = .ok node ∧ node.indices = indices ∧
        node.getType = some type)) := by
  have hlast := getElem?_lastIndex indices hne
  refine ⟨?_, ?_, ?_⟩
  · intro node h
    simp only [ExtractValueExpr.new, moveIndices_eq, hlast] at h
    cases ht : (indices.getLast hne).getType with
    | none => simp [ht] at h
    | some type =>
      simp only [ht, Except.ok.injEq] at h
      subst h
      exact ⟨rfl, by simp [ExprBase.getType, ExprBase.setType, CType.clone_eq], rfl⟩
  · intro node h
    simp only [GepExpr.new, moveIndices_eq, hlast] at h
    cases ht : (indices.getLast hne).getType with
    | none => simp [ht] at h
    | some type =>
      simp only [ht, Except.ok.injEq] at h
      subst h
      exact ⟨rfl, by simp [ExprBase.getType, ExprBase.setType, CType.clone_eq], rfl⟩
  · intro type ht
    have hE : ExtractValueExpr.new indices =
        .ok { toExprBase := ExprBase.setType { kind := .EK_ExtractValueExpr } type.clone,
              indices := indices } := by
      simp only [ExtractValueExpr.new, moveIndices_eq, hlast, ht]
    have hG : GepExpr.new indices =
        .ok { toExprBase := ExprBase.setType { kind := .EK_GepExpr } type.clone,
              indices := indices } := by
      simp only [GepExpr.new, moveIndices_eq, hlast, ht]
    refine ⟨⟨_, hE, rfl, ?_⟩, ⟨_, hG, rfl, ?_⟩⟩
    · simp [ExprBase.getType, ExprBase.setType, CType.clone_eq]
    · simp [ExprBase.getType, ExprBase.setType, CType.clone_eq]

/-- Witness of C13: both nodes built from `sampleIndices` hold the two indices and have
the type `unsigned char*` of the last one. -/
theorem C13_index_chain_type_witness :
    (∃ node, ExtractValueExpr.new sampleIndices = .ok node ∧ node.indices = sampleIndices ∧
      node.getType = some (.PointerType (CharType true))) ∧
    (∃ node, GepExpr.new sampleIndices = .ok node ∧ node.indices = sampleIndices ∧
      node.getType = some (.PointerType (CharType true))) :=
  (C13_index_chain_type sampleIndices (by decide)).2.2 (.PointerType (CharType true)) rfl

/-- C14: a `StackAlloc` built for the value at address `var` reports, through `getType`,
the type of that value as the store holds it when `getType` is called, also after the
value's type has been changed; what it reports is not the clone the constructor stored
in the node. When the value has a type the constructor succeeds. -/
theorem C14_stackAlloc_forwards_type (store : ValueStore) (var : Nat) :
    (∀ node, StackAlloc.new store var = .ok node →
      node.getType store = (store var).getType ∧
      (∀ changed : ValueStore, node.getType changed = (changed var).getType) ∧
      node.toExprBase.getType = (store var).getType ∧
      node.getKind = .EK_StackAlloc) ∧
    (∀ type : CType, (store var).getType = some type →
      ∃ node, StackAlloc.new store var = .ok node ∧
        node.getType store = some type ∧
        ∀ changed : ValueStore, node.getType changed = (changed var).getType) ∧
    (∀ (valueName : String) (type : CType), store var = Value.new valueName type →
      ∃ node, StackAlloc.new store var = .ok node ∧
        node.getType store = (Value.new valueName type).getType) := by
  have hok : ∀ type : CType, (store var).getType = some type →
      StackAlloc.new store var =
        .ok { toExprBase := ExprBase.setType { kind := .EK_StackAlloc } type.clone,
              value := var } := by
    intro type ht
    simp only [StackAlloc.new, ht]
  refine ⟨?_, ?_, ?_⟩
  · intro node h
    cases ht : (store var).getType with
    | none => simp [StackAlloc.new, ht] at h
    | some type =>
      rw [hok type ht] at h
      simp only [Except.ok.injEq] at h
      subst h
      refine ⟨ht, fun _ => rfl, ?_, rfl⟩
      simp [ExprBase.getType, ExprBase.setType, CType.clone_eq]
  · intro type ht
    exact ⟨_, hok type ht, ht, fun _ => rfl⟩
  · intro valueName type hv
    have ht : (store var).getType = some type := by rw [hv]; rfl
    refine ⟨_, hok type ht, ?_⟩
    rw [← hv]
    rfl

/-- Witness of C14: the node built for `unsigned int x` reports `unsigned int`; after the
flag of the value's type is cleared it reports `int`, while the clone stored in the node
is still `unsigned int`. -/
theorem C14_stackAlloc_forwards_type_witness :
    ∃ node, StackAlloc.new sampleStore 0 = .ok node ∧
      node.getType sampleStore = some (IntType true) ∧
      node.getType sampleStoreSigned = some (IntType false) ∧
      node.toExprBase.getType = some (IntType true) := by
  obtain ⟨node, hnew, htype, hforward⟩ :=
    (C14_stackAlloc_forwards_type sampleStore 0).2.1 (IntType true) rfl
  have hcopy := ((C14_stackAlloc_forwards_type sampleStore 0).1 node hnew).2.2.1
  exact ⟨node, hnew, htype, hforward sampleStoreSigned, hcopy⟩

/-- C15: every `SelectExpr(comp, l, r)` has the result type of its true branch `l`,
whatever `comp` and `r` are; when `l` has a result type the constructor succeeds. -/
theorem C15_selectExpr_type (comp : Option Expr) (l : Expr) (r : Option Expr) :
    (∀ node, SelectExpr.new comp l r = .ok node →
      node.getType = l.getType ∧ node.getKind = .EK_SelectExpr ∧
      node.left = l ∧ node.right = r ∧ node.comp = comp) ∧
    (∀ type : CType, l.getType = some type →
      ∃ node, SelectExpr.new comp l r = .ok node ∧ node.getType = some type ∧
        node.getType = some type.clone) := by
  have hok : ∀ type : CType, l.getType = some type →
      SelectExpr.new comp l r =
        .ok { toExprBase := ExprBase.setType { kind := .EK_SelectExpr } type.clone,
              left := l, right := r, comp := comp } := by
    intro type ht
    simp only [SelectExpr.new, ht]
  refine ⟨?_, ?_⟩
  · intro node h
    cases ht : l.getType with
    | none => simp [SelectExpr.new, ht] at h
    | some type =>
      rw [hok type ht] at h
      simp only [Except.ok.injEq] at h
      subst h
      refine ⟨?_, rfl, rfl, rfl, rfl⟩
      simp [ExprBase.getType, ExprBase.setType, CType.clone_eq]
  · intro type ht
    refine ⟨_, hok type ht, ?_, rfl⟩
    simp [ExprBase.getType, ExprBase.setType, CType.clone_eq]

/-- Witness of C15: a select between an `int` and a `double` branch has the type `int`
of the true branch. -/
theorem C15_selectExpr_type_witness :
    ∃ node, SelectExpr.new (some { kind := .EK_Value, type := some (CharType true) })
        { kind := .EK_Value, type := some (IntType false) }
        (some { kind := .EK_Value, type := some (.FloatingPointType .DoubleType) }) = .ok node ∧
      node.getType = some (IntType false) ∧
      node.getType = some (IntType false).clone :=
  (C15_selectExpr_type (some { kind := .EK_Value, type := some (CharType true) })
    { kind := .EK_Value, type := some (IntType false) }
    (some { kind := .EK_Value, type := some (.FloatingPointType .DoubleType) })).2
    (IntType false) rfl

/-! ## Claims on the passes: completion, frame and idempotence -/

theorem isPassCompleted_addPass (program : Program) (added pass : PassType) :
    (program.addPass added).isPassCompleted pass =
      (decide (pass = added) || program.isPassCompleted pass) := by
  simp only [Program.addPass, Program.isPassCompleted, List.mem_insert_iff]
  by_cases h1 : pass = added <;> by_cases h2 : pass ∈ program.passes <;> simp [h1, h2]

theorem fixMainParameters_completed_iff (module : llvm.Module) (program program' : Program)
    (hrun : fixMainParameters module program = .completed program') :
    program.isPassCompleted .CreateFunctionParameters = true ∧
    program' = (module.functions.foldl fixMainParametersStep program).addPass
      .FixMainParameters := by
  cases hpass : program.isPassCompleted .CreateFunctionParameters with
  | false => simp [fixMainParameters, hpass] at hrun
  | true =>
    rw [fixMainParameters_completed module program hpass] at hrun
    exact ⟨rfl, (PassResult.completed.inj hrun).symm⟩

theorem fixMainParameters_getFunction (module : llvm.Module) (program program' : Program)
    (hrun : fixMainParameters module program = .completed program') (func : llvm.Function) :
    program'.getFunction func =
      if func.name = "main" ∧ func ∈ module.functions then fixMainFunc (program.getFunction func)
      else program.getFunction func := by
  obtain ⟨_, hprog⟩ := fixMainParameters_completed_iff module program program' hrun
  subst hprog
  exact fixMainParameters_fold_functions module.functions program func

/-- C16: a completed `parseStructDeclarations` leaves `ParseStructDeclarations` in the
completed set, a completed `fixMainParameters` leaves `FixMainParameters` and
`CreateFunctionParameters` in it, and both keep every pass that was completed before;
`parseStructDeclarations` returns whatever the completed set is, in particular from the
empty one, and `fixMainParameters` returns when `CreateFunctionParameters` is completed. -/
theorem C16_passes_marked_completed (getStructName : String → String) (module : llvm.Module)
    (program : Program) :
    (∃ program', parseStructDeclarations getStructName module program = .completed program' ∧
      program'.isPassCompleted .ParseStructDeclarations = true ∧
      (∀ pass, program.isPassCompleted pass = true → program'.isPassCompleted pass = true) ∧
      (program.passes = [] → program'.passes = [.ParseStructDeclarations])) ∧
    (∀ program', fixMainParameters module program = .completed program' →
      program'.isPassCompleted .FixMainParameters = true ∧
      program'.isPassCompleted .CreateFunctionParameters = true ∧
      ∀ pass, program.isPassCompleted pass = true → program'.isPassCompleted pass = true) ∧
    (program.isPassCompleted .CreateFunctionParameters = true →
      ∃ program', fixMainParameters module program = .completed program') := by
  refine ⟨⟨_, parseStructDeclarations_eq getStructName module program, ?_, ?_, ?_⟩, ?_, ?_⟩
  · simp [Program.isPassCompleted]
  · intro pass h
    simp only [Program.isPassCompleted, decide_eq_true_eq] at h
    simp [Program.isPassCompleted, h]
  · intro h
    simp [h]
  · intro program' hrun
    obtain ⟨hpass, hprog⟩ := fixMainParameters_completed_iff module program program' hrun
    subst hprog
    have hframe : ∀ pass,
        (module.functions.foldl fixMainParametersStep program).isPassCompleted pass =
          program.isPassCompleted pass := by
      intro pass
      simp only [Program.isPassCompleted,
        (fixMainParameters_fold_frame module.functions program).1]
    refine ⟨?_, ?_, ?_⟩
    · simp [isPassCompleted_addPass]
    · simp [isPassCompleted_addPass, hframe, hpass]
    · intro pass h
      simp [isPassCompleted_addPass, hframe, h]
  · intro hpass
    exact ⟨_, fixMainParameters_completed module program hpass⟩

/-- Witness of C16: from the empty completed set `parseStructDeclarations` returns with
exactly `ParseStructDeclarations` completed; `fixMainParameters` on `mainProgram` returns
with `FixMainParameters` and `CreateFunctionParameters` completed. -/
theorem C16_passes_marked_completed_witness :
    (∃ program', parseStructDeclarations sampleStructName mixedModule emptyProgram =
        .completed program' ∧ program'.passes = [.ParseStructDeclarations]) ∧
    (∃ program', fixMainParameters mainModule mainProgram = .completed program' ∧
      program'.isPassCompleted .FixMainParameters = true ∧
      program'.isPassCompleted .CreateFunctionParameters = true) := by
  obtain ⟨program', hrun, _, _, hempty⟩ :=
    (C16_passes_marked_completed sampleStructName mixedModule emptyProgram).1
  obtain ⟨fixed, hfixed⟩ :=
    (C16_passes_marked_completed sampleStructName mainModule mainProgram).2.2 (by decide)
  have hkeep := (C16_passes_marked_completed sampleStructName mainModule mainProgram).2.1
    fixed hfixed
  exact ⟨⟨program', hrun, hempty rfl⟩, ⟨fixed, hfixed, hkeep.1, hkeep.2.1⟩⟩

theorem signedInnermost_pointerDepth : ∀ t : CType,
    pointerDepth (signedInnermost t) = pointerDepth t
  | .PointerType inner => by
    simp [signedInnermost, pointerDepth, signedInnermost_pointerDepth inner]
  | .IntegerType _ _ => by simp [signedInnermost, pointerDepth]
  | .VoidType => by simp [signedInnermost]
  | .FloatingPointType _ => by simp [signedInnermost]
  | .ArrayType _ _ => by simp [signedInnermost]
  | .StructType _ => by simp [signedInnermost]
  | .FunctionPointerType _ _ => by simp [signedInnermost]

theorem signedInnermost_of_not_integer : ∀ t : CType,
    (innermostType t).isIntegerType = false → signedInnermost t = t
  | .PointerType inner => by
    intro h
    simp only [innermostType] at h
    simp [signedInnermost, signedInnermost_of_not_integer inner h]
  | .IntegerType _ _ => by simp [innermostType, CType.isIntegerType]
  | .VoidType => by simp [signedInnermost]
  | .FloatingPointType _ => by simp [signedInnermost]
  | .ArrayType _ _ => by simp [signedInnermost]
  | .StructType _ => by simp [signedInnermost]
  | .FunctionPointerType _ _ => by simp [signedInnermost]

theorem innermostType_of_not_pointer (t : CType) (h : t.isPointerType = false) :
    innermostType t = t := by
  cases t <;> first | rfl | simp [CType.isPointerType] at h

theorem fixMainParameter_eq_self (param : Value)
    (h : ∀ t, param.getType = some t → signedInnermost t = t) :
    fixMainParameter param = param := by
  apply Value.ext_fields
  · rfl
  · rw [fixMainParameter_type]
    cases ht : param.getType with
    | none => rfl
    | some t => simp [h t ht]
  · rfl

theorem fixMainFunc_frame (myFunc fixed : Func)
    (hfixed : fixed = myFunc ∨ fixed = fixMainFunc myFunc) :
    fixed.parameters.length = myFunc.parameters.length ∧
    fixed.parameters.map (fun param => param.valueName) =
      myFunc.parameters.map (fun param => param.valueName) ∧
    ∀ (i : Nat) (param : Value), myFunc.parameters[i]? = some param →
      ∃ param', fixed.parameters[i]? = some param' ∧
        param'.valueName = param.valueName ∧ param'.getKind = param.getKind ∧
        ((∀ t, param.getType = some t → t.isIntegerType = false ∧ t.isPointerType = false) →
          param' = param) ∧
        (∀ t, param.getType = some t →
          ∃ t', param'.getType = some t' ∧ pointerDepth t' = pointerDepth t ∧
            ((innermostType t).isIntegerType = false → param' = param)) := by
  rcases hfixed with h | h
  · subst h
    refine ⟨rfl, rfl, fun i param hparam => ⟨param, hparam, rfl, rfl, fun _ => rfl, ?_⟩⟩
    intro t ht
    exact ⟨t, ht, rfl, fun _ => rfl⟩
  · subst h
    refine ⟨by simp [fixMainFunc], ?_, ?_⟩
    · simp [fixMainFunc, List.map_map, Function.comp_def, fixMainParameter_valueName]
    · intro i param hparam
      refine ⟨fixMainParameter param, by simp [fixMainFunc, hparam], rfl, rfl, ?_, ?_⟩
      · intro hnot
        apply fixMainParameter_eq_self
        intro t ht
        apply signedInnermost_of_not_integer
        rw [innermostType_of_not_pointer t (hnot t ht).2]
        exact (hnot t ht).1
      · intro t ht
        refine ⟨signedInnermost t, ?_, signedInnermost_pointerDepth t, ?_⟩
        · rw [fixMainParameter_type, ht]
          rfl
        · intro hinner
          apply fixMainParameter_eq_self
          intro t2 ht2
          have : t2 = t := by
            rw [ht] at ht2
            exact (Option.some.inj ht2).symm
          subst this
          exact signedInnermost_of_not_integer _ hinner

/-- C17: a completed `fixMainParameters` leaves the record of every function whose name
is not "main" as it was; for every function the parameters keep their number, order,
names and kinds, a parameter whose type is neither an integer nor a pointer type (or is
unset) is unchanged, a parameter type keeps its pointer nesting depth, and a parameter
whose pointer chain ends in a type that is not an integer type is unchanged. The struct
catalog, `hasVarArg` and the type registry are unchanged as well. -/
theorem C17_fixMainParameters_frame (module : llvm.Module) (program program' : Program)
    (hrun : fixMainParameters module program = .completed program') :
    (∀ func : llvm.Function, func.getName ≠ "main" →
      program'.getFunction func = program.getFunction func ∧
      (program'.getFunction func).returnType = (program.getFunction func).returnType ∧
      (program'.getFunction func).parameters = (program.getFunction func).parameters) ∧
    (∀ func : llvm.Function,
      (program'.getFunction func).parameters.length =
        (program.getFunction func).parameters.length ∧
      (program'.getFunction func).parameters.map (fun param => param.valueName) =
        (program.getFunction func).parameters.map (fun param => param.valueName) ∧
      ∀ (i : Nat) (param : Value), (program.getFunction func).parameters[i]? = some param →
        ∃ param', (program'.getFunction func).parameters[i]? = some param' ∧
          param'.valueName = param.valueName ∧ param'.getKind = param.getKind ∧
          ((∀ t, param.getType = some t → t.isIntegerType = false ∧ t.isPointerType = false) →
            param' = param) ∧
          (∀ t, param.getType = some t →
            ∃ t', param'.getType = some t' ∧ pointerDepth t' = pointerDepth t ∧
              ((innermostType t).isIntegerType = false → param' = param))) ∧
    program'.structs = program.structs ∧ program'.hasVarArg = program.hasVarArg ∧
    program'.typeHandler = program.typeHandler := by
  have hfun := fixMainParameters_getFunction module program program' hrun
  obtain ⟨_, hprog⟩ := fixMainParameters_completed_iff module program program' hrun
  obtain ⟨_, hstructs, hflag, hhandler⟩ := fixMainParameters_fold_frame module.functions program
  refine ⟨?_, ?_, ?_, ?_, ?_⟩
  · intro func hname
    have hsame : program'.getFunction func = program.getFunction func := by
      rw [hfun func]
      simp only [llvm.Function.getName] at hname
      simp [hname]
    exact ⟨hsame, by rw [hsame], by rw [hsame]⟩
  · intro func
    apply fixMainFunc_frame
    rw [hfun func]
    by_cases hc : func.name = "main" ∧ func ∈ module.functions
    · exact Or.inr (by simp [hc])
    · exact Or.inl (by simp [hc])
  · rw [hprog]; exact hstructs
  · rw [hprog]; exact hflag
  · rw [hprog]; exact hhandler

/-- Witness of C17: on `frameProgram` the function "helper" keeps
`unsigned char helper(unsigned char c)`, and the parameters `void** argv` and
`float scale` of "main" are unchanged. -/
theorem C17_fixMainParameters_frame_witness :
    ∃ program', fixMainParameters frameModule frameProgram = .completed program' ∧
      program'.getFunction { address := 2, name := "helper" } =
        { returnType := CharType true, parameters := [Value.new "c" (CharType true)] } ∧
      (program'.getFunction { address := 1, name := "main" }).parameters.length = 3 ∧
      (program'.getFunction { address := 1, name := "main" }).parameters[1]? =
        some (Value.new "argv" (.PointerType (.PointerType VoidType))) ∧
      (program'.getFunction { address := 1, name := "main" }).parameters[2]? =
        some (Value.new "scale" (.FloatingPointType .FloatType)) := by
  have hrun := fixMainParameters_completed frameModule frameProgram (by decide)
  obtain ⟨hother, hmain, _⟩ := C17_fixMainParameters_frame frameModule frameProgram _ hrun
  refine ⟨_, hrun, (hother { address := 2, name := "helper" } (by decide)).1,
    (hmain { address := 1, name := "main" }).1, ?_, ?_⟩
  · obtain ⟨param', hget, _, _, _, hchain⟩ :=
      (hmain { address := 1, name := "main" }).2.2 1
        (Value.new "argv" (.PointerType (.PointerType VoidType))) rfl
    obtain ⟨_, _, _, hsame⟩ := hchain (.PointerType (.PointerType VoidType)) rfl
    rw [hget, hsame (by decide)]
  · obtain ⟨param', hget, _, _, hplain, _⟩ :=
      (hmain { address := 1, name := "main" }).2.2 2
        (Value.new "scale" (.FloatingPointType .FloatType)) rfl
    have hsame := hplain (fun t ht => by
      have : t = .FloatingPointType .FloatType := (Option.some.inj ht).symm
      subst this
      exact ⟨rfl, rfl⟩)
    rw [hget, hsame]

/-- C18: with `CreateFunctionParameters` completed, `fixMainParameters` returns, it
returns again when run on its own result, and the second run leaves the record of every
function (return type and parameters) exactly as the first run left it. -/
theorem C18_fixMainParameters_idempotent (module : llvm.Module) (program : Program)
    (hpass : program.isPassCompleted .CreateFunctionParameters = true) :
    ∃ once twice, fixMainParameters module program = .completed once ∧
      fixMainParameters module once = .completed twice ∧
      (∀ func : llvm.Function, twice.getFunction func = once.getFunction func) ∧
      twice.structs = once.structs ∧ twice.hasVarArg = once.hasVarArg ∧
      twice.passes = once.passes := by
  have hfirst := fixMainParameters_completed module program hpass
  have hkeep : ((module.functions.foldl fixMainParametersStep program).addPass
      .FixMainParameters).isPassCompleted .CreateFunctionParameters = true := by
    rw [isPassCompleted_addPass]
    simp only [Program.isPassCompleted,
      (fixMainParameters_fold_frame module.functions program).1]
    simp only [Program.isPassCompleted] at hpass
    simp [hpass]
  have hsecond := fixMainParameters_completed module _ hkeep
  refine ⟨_, _, hfirst, hsecond, ?_, ?_, ?_, ?_⟩
  · intro func
    rw [fixMainParameters_getFunction module _ _ hsecond func,
      fixMainParameters_getFunction module _ _ hfirst func]
    by_cases hc : func.name = "main" ∧ func ∈ module.functions
    · simp [hc, fixMainFunc_idem]
    · simp [hc]
  · exact (fixMainParameters_fold_frame module.functions _).2.1
  · exact (fixMainParameters_fold_frame module.functions _).2.2.1
  · simp only [Program.addPass, (fixMainParameters_fold_frame module.functions _).1]
    simp

/-- Witness of C18: two runs on `mainProgram` leave "main" as one run does,
`int main(char**)`. -/
theorem C18_fixMainParameters_idempotent_witness :
    ∃ once twice, fixMainParameters mainModule mainProgram = .completed once ∧
      fixMainParameters mainModule once = .completed twice ∧
      twice.getFunction { address := 1, name := "main" } =
        once.getFunction { address := 1, name := "main" } := by
  obtain ⟨once, twice, h1, h2, hsame, _⟩ :=
    C18_fixMainParameters_idempotent mainModule mainProgram (by decide)
  exact ⟨once, twice, h1, h2, hsame _⟩

/-! ## Claims on `AsmExpr::addOutputExpr`: frame -/

theorem addOutputExprLoop_cases (expr : Option Expr) (output : List (String × Option Expr)) :
    ∀ (fuel j : Nat), output.length - j ≤ fuel →
      ((∀ (k : Nat) (slot : String × Option Expr), j ≤ k → output[k]? = some slot →
          slot.2 ≠ none) ∧
        AsmExpr.addOutputExprLoop expr fuel j output = output) ∨
      (∃ (i : Nat) (slot : String × Option Expr), j ≤ i ∧ output[i]? = some slot ∧
        slot.2 = none ∧
        (∀ (k : Nat) (other : String × Option Expr), j ≤ k → k < i →
          output[k]? = some other → other.2 ≠ none) ∧
        AsmExpr.addOutputExprLoop expr fuel j output = output.set i (slot.1, expr)) := by
  intro fuel
  induction fuel with
  | zero =>
    intro j hfuel
    refine Or.inl ⟨fun k slot hk hget => ?_, rfl⟩
    have := (List.getElem?_eq_some_iff.mp hget).1
    omega
  | succ fuel ih =>
    intro j hfuel
    unfold AsmExpr.addOutputExprLoop
    cases hj : output[j]? with
    | none =>
      refine Or.inl ⟨fun k slot hk hget => ?_, rfl⟩
      have hlen : output.length ≤ j := List.getElem?_eq_none_iff.mp hj
      have := (List.getElem?_eq_some_iff.mp hget).1
      omega
    | some slot =>
      cases hs : slot.2 with
      | none =>
        refine Or.inr ⟨j, slot, Nat.le_refl j, hj, hs, fun k _ h1 h2 => by omega, ?_⟩
        simp [hs]
      | some bound =>
        have hnone : slot.2.isNone = false := by simp [hs]
        simp only [hs, Option.isNone_some]
        rcases ih (j + 1) (by omega) with ⟨hall, hloop⟩ | ⟨i, found, hi, hget, hunbound, hleast, hloop⟩
        · refine Or.inl ⟨fun k other hk hk2 => ?_, by simpa using hloop⟩
          by_cases hkj : k = j
          · subst hkj
            rw [hj] at hk2
            have : other = slot := (Option.some.inj hk2).symm
            subst this
            simp [hs]
          · exact hall k other (by omega) hk2
        · refine Or.inr ⟨i, found, by omega, hget, hunbound, fun k other hk hki hk2 => ?_,
            by simpa using hloop⟩
          by_cases hkj : k = j
          · subst hkj
            rw [hj] at hk2
            have : other = slot := (Option.some.inj hk2).symm
            subst this
            simp [hs]
          · exact hleast k other (by omega) hki hk2

/-- C19: `addOutputExpr(expr, pos)` keeps the length of the output list and every
operand name; every slot before `pos` and every slot that was bound keeps its binding;
all slots but at most one are unchanged; when no slot at an index at or after `pos` is
unbound, in particular when `pos` is not smaller than the number of outputs, the output
list is unchanged; the input list, the instruction text, the clobbers and the base part
of the node are unchanged. -/
theorem C19_addOutputExpr_frame (a : AsmExpr) (expr : Option Expr) (pos : Nat) :
    (a.addOutputExpr expr pos).output.length = a.output.length ∧
    (a.addOutputExpr expr pos).output.map Prod.fst = a.output.map Prod.fst ∧
    (∀ (i : Nat) (slot : String × Option Expr), a.output[i]? = some slot →
      (i < pos ∨ slot.2 ≠ none) → (a.addOutputExpr expr pos).output[i]? = some slot) ∧
    (∃ i : Nat, ∀ j : Nat, j ≠ i → (a.addOutputExpr expr pos).output[j]? = a.output[j]?) ∧
    ((∀ (i : Nat) (slot : String × Option Expr), pos ≤ i → a.output[i]? = some slot →
        slot.2 ≠ none) → (a.addOutputExpr expr pos).output = a.output) ∧
    (a.output.length ≤ pos → (a.addOutputExpr expr pos).output = a.output) ∧
    (a.addOutputExpr expr pos).input = a.input ∧
    (a.addOutputExpr expr pos).inst = a.inst ∧
    (a.addOutputExpr expr pos).clobbers = a.clobbers ∧
    (a.addOutputExpr expr pos).toExprBase = a.toExprBase := by
  have hout : (a.addOutputExpr expr pos).output =
      AsmExpr.addOutputExprLoop expr (a.output.length - pos) pos a.output := rfl
  have hbound : (∀ (i : Nat) (slot : String × Option Expr), pos ≤ i →
      a.output[i]? = some slot → slot.2 ≠ none) →
      (a.addOutputExpr expr pos).output = a.output := by
    intro hall
    rcases addOutputExprLoop_cases expr a.output (a.output.length - pos) pos (Nat.le_refl _) with
      ⟨_, hloop⟩ | ⟨i, slot, hi, hget, hunbound, _, _⟩
    · rw [hout, hloop]
    · exact absurd hunbound (hall i slot hi hget)
  refine ⟨?_, ?_, ?_, ?_, hbound, ?_, rfl, rfl, rfl, rfl⟩
  · rcases addOutputExprLoop_cases expr a.output (a.output.length - pos) pos (Nat.le_refl _) with
      ⟨_, hloop⟩ | ⟨i, slot, _, _, _, _, hloop⟩
    · rw [hout, hloop]
    · rw [hout, hloop, List.length_set]
  · rcases addOutputExprLoop_cases expr a.output (a.output.length - pos) pos (Nat.le_refl _) with
      ⟨_, hloop⟩ | ⟨i, slot, _, hget, _, _, hloop⟩
    · rw [hout, hloop]
    · rw [hout, hloop]
      apply List.ext_getElem?
      intro k
      simp only [List.getElem?_map, List.getElem?_set]
      by_cases hik : i = k
      · subst hik
        have hlen := (List.getElem?_eq_some_iff.mp hget).1
        simp [hlen, hget]
      · simp [hik]
  · intro k slot hget hcond
    rcases addOutputExprLoop_cases expr a.output (a.output.length - pos) pos (Nat.le_refl _) with
      ⟨_, hloop⟩ | ⟨i, found, hi, hfound, hunbound, _, hloop⟩
    · rw [hout, hloop, hget]
    · have hne : i ≠ k := by
        intro hik
        subst hik
        rw [hget] at hfound
        have : found = slot := (Option.some.inj hfound).symm
        subst this
        rcases hcond with h | h
        · omega
        · exact h hunbound
      rw [hout, hloop, List.getElem?_set_ne hne, hget]
  · rcases addOutputExprLoop_cases expr a.output (a.output.length - pos) pos (Nat.le_refl _) with
      ⟨_, hloop⟩ | ⟨i, slot, _, _, _, _, hloop⟩
    · exact ⟨0, fun j _ => by rw [hout, hloop]⟩
    · exact ⟨i, fun j hj => by rw [hout, hloop, List.getElem?_set_ne (Ne.symm hj)]⟩
  · intro hlen
    apply hbound
    intro i slot hi hget
    have := (List.getElem?_eq_some_iff.mp hget).1
    omega

/-- Witness of C19: on `sampleAsm` a call from position 1 keeps the unbound first output
and the bound second output; a call from position 3, past the last output, changes
nothing. -/
theorem C19_addOutputExpr_frame_witness :
    (sampleAsm.addOutputExpr (some { kind := .EK_CallExpr }) 1).output[0]? =
      some ("=r", none) ∧
    (sampleAsm.addOutputExpr (some { kind := .EK_CallExpr }) 1).output[1]? =
      some ("=m", some { kind := .EK_Value }) ∧
    (sampleAsm.addOutputExpr (some { kind := .EK_CallExpr }) 3).output = sampleAsm.output :=
  ⟨(C19_addOutputExpr_frame sampleAsm (some { kind := .EK_CallExpr }) 1).2.2.1 0 ("=r", none)
      rfl (Or.inl (by decide)),
    (C19_addOutputExpr_frame sampleAsm (some { kind := .EK_CallExpr }) 1).2.2.1 1
      ("=m", some { kind := .EK_Value }) rfl (Or.inr (by simp)),
    (C19_addOutputExpr_frame sampleAsm (some { kind := .EK_CallExpr }) 3).2.2.2.2.2.1
      (by decide)⟩

/-! ## Claims on the node constructors: the out-of-range branch -/

/-- C20: `ExtractValueExpr` and `GepExpr` reach the out-of-range branch of
`indices[indices.size() - 1]` exactly when the index list is empty, and `StructElement`
reaches the out-of-range branch of `items[element]` exactly when `element` is not
smaller than the number of fields; so the branch is taken on those inputs and is
unreachable when the index list is non-empty and `element` is smaller than the number of
fields, where `StructElement` always succeeds. -/
theorem C20_constructors_index_range :
    (∀ indices : List Expr,
      ExtractValueExpr.new indices = .error .indexOutOfRange ↔ indices = []) ∧
    (∀ indices : List Expr, GepExpr.new indices = .error .indexOutOfRange ↔ indices = []) ∧
    (∀ (strct : Struct) (expr : Option Expr) (element : Nat),
      StructElement.new strct expr element = .error .indexOutOfRange ↔
        strct.items.length ≤ element) ∧
    (∀ (strct : Struct) (expr : Option Expr) (element : Nat), element < strct.items.length →
      ∃ node, StructElement.new strct expr element = .ok node) := by
  refine ⟨?_, ?_, ?_, ?_⟩
  · intro indices
    constructor
    · intro h
      by_contra hne
      simp only [ExtractValueExpr.new, moveIndices_eq, getElem?_lastIndex indices hne] at h
      cases ht : (indices.getLast hne).getType <;> simp [ht] at h
    · intro h
      subst h
      rfl
  · intro indices
    constructor
    · intro h
      by_contra hne
      simp only [GepExpr.new, moveIndices_eq, getElem?_lastIndex indices hne] at h
      cases ht : (indices.getLast hne).getType <;> simp [ht] at h
    · intro h
      subst h
      rfl
  · intro strct expr element
    constructor
    · intro h
      by_contra hlt
      have hlt2 : element < strct.items.length := by omega
      simp [StructElement.new, List.getElem?_eq_getElem hlt2] at h
    · intro h
      simp [StructElement.new, List.getElem?_eq_none h]
  · intro strct expr element hlt
    simp only [StructElement.new, List.getElem?_eq_getElem hlt]
    exact ⟨_, rfl⟩

end llvm2c
